import Mathlib

/-! Basalam shelves updater: the dashboard controller of `static/app.js`.

A shallow embedding of the class `BasalamApp`: JSON values as the parser hands
them to the script, the few JavaScript operators the methods apply to them
(truthiness, `typeof`, property reads, `||`, `trim`, text conversion), errors as
thrown values, and the methods themselves as functions over an explicit
application state with a log of the requests they issue.
-/

namespace BasalamApp

/-! ## Values and errors -/

/-- A value produced by `JSON.parse`. Numbers are the integers a double holds
exactly (fractions and magnitudes from `2^53` on are outside the model): the
code tests numbers for truthiness and type, prints identifiers, and adds and
compares the update counts. -/
inductive JsVal where
  | null
  | bool (b : Bool)
  | num (n : Int)
  | str (s : String)
  | arr (items : List JsVal)
  | obj (props : List (String × JsVal))
  deriving Repr, Inhabited

/-- A thrown value: an error object with its `name` and `message`. -/
structure JsError where
  name : String
  message : String
  deriving Repr, DecidableEq, Inhabited

/-- The `TypeError` the interpreter raises (reading a property of `null`,
calling something that is no function, iterating a non-iterable, converting an
object without a usable `toString`). -/
def typeError (message : String) : JsError := ⟨"TypeError", message⟩

/-- The value `new Error(message)`. -/
def newError (message : String) : JsError := ⟨"Error", message⟩

/-- Truthiness of a parsed value: `null`, `false`, `0` and `""` are falsy. -/
def truthy : JsVal → Bool
  | .null => false
  | .bool b => b
  | .num n => n != 0
  | .str s => s != ""
  | .arr _ => true
  | .obj _ => true

/-- Truthiness of an expression that may be `undefined` (`none`). -/
def truthyOpt : Option JsVal → Bool
  | none => false
  | some v => truthy v

/-- The test `typeof v === 'object'`: true of `null`, arrays and objects. -/
def typeofObject : JsVal → Bool
  | .null => true
  | .arr _ => true
  | .obj _ => true
  | _ => false

/-- Own property `k` of an object given by its members in text order;
`JSON.parse` keeps the last of several members with one key. -/
def lookupProp : List (String × JsVal) → String → Option JsVal
  | [], _ => none
  | (k', v) :: rest, k =>
    match lookupProp rest k with
    | some w => some w
    | none => if k' = k then some v else none

/-- The own data member `k` of a value other than `null`: the member of an
object, nothing on an array or a scalar. It is the read `v.k` wherever the
receiver inherits no member of that name, which holds of every read of the
code (`data`, `id`, `photo`, `title`, `success`, ...) but one: a string
inherits the method `small` of `String.prototype`, so the photo reads of
`createProductCard` go through `readMember`. -/
def prop (v : JsVal) (k : String) : Option JsVal :=
  match v with
  | .obj ps => lookupProp ps k
  | _ => none

/-- The read `v.k` on any parsed value: a `TypeError` on `null`. -/
def getProp (v : JsVal) (k : String) : Except JsError (Option JsVal) :=
  match v with
  | .null => .error (typeError ("Cannot read properties of null: " ++ k))
  | _ => .ok (prop v k)

/-- The own data member the optional read `x?.k` finds: nothing when `x` is
`undefined` or `null`. -/
def optProp (x : Option JsVal) (k : String) : Option JsVal :=
  match x with
  | none => none
  | some v => prop v k

/-- The optional read `x?.[0]`: first element of an array, first character of a
string (a character beyond the basic plane stands for its leading surrogate),
member `"0"` of an object. -/
def optIndex0 (x : Option JsVal) : Option JsVal :=
  match x with
  | none => none
  | some .null => none
  | some (.arr items) => items.head?
  | some (.str s) =>
    match s.data with
    | [] => none
    | c :: _ => some (.str (String.mk [c]))
  | some (.obj ps) => lookupProp ps "0"
  | some _ => none

/-- The operator `a || b` with a defined right operand. -/
def orElse (a : Option JsVal) (b : JsVal) : JsVal :=
  match a with
  | some v => if truthy v then v else b
  | none => b

/-- The operator `a || b` where both operands may be `undefined`. -/
def orOpt (a b : Option JsVal) : Option JsVal :=
  match a with
  | some v => if truthy v then some v else b
  | none => b

/-- Whether the object has an own member `k`. -/
def hasOwn (ps : List (String × JsVal)) (k : String) : Bool :=
  (lookupProp ps k).isSome

mutual
/-- Text conversion of a value, as a template literal or `new Error(v)`
performs it: an array joins the texts of its elements with commas (`null` giving the
empty text); an object is `[object Object]` unless an own member shadows
`toString`, in which case no conversion method is callable and a `TypeError`
is thrown. -/
def toText : JsVal → Except JsError String
  | .null => .ok "null"
  | .bool true => .ok "true"
  | .bool false => .ok "false"
  | .num n => .ok (toString n)
  | .str s => .ok s
  | .arr items => joinText items
  | .obj ps =>
    if hasOwn ps "toString" then .error (typeError "Cannot convert object to primitive value")
    else .ok "[object Object]"
/-- The body of `Array.prototype.join` with the separator `,`. -/
def joinText : List JsVal → Except JsError String
  | [] => .ok ""
  | [.null] => .ok ""
  | [v] => toText v
  | .null :: rest => do
    let r ← joinText rest
    pure ("," ++ r)
  | v :: rest => do
    let t ← toText v
    let r ← joinText rest
    pure (t ++ "," ++ r)
end

/-- Text conversion of an expression that may be `undefined`. -/
def toTextOpt : Option JsVal → Except JsError String
  | none => .ok "undefined"
  | some v => toText v

/-- White space and line terminators, the characters `String.prototype.trim`
removes. -/
def isJsSpace (c : Char) : Bool :=
  let n := c.toNat
  n == 0x09 || n == 0x0A || n == 0x0B || n == 0x0C || n == 0x0D || n == 0x20 ||
  n == 0xA0 || n == 0x1680 || (0x2000 ≤ n && n ≤ 0x200A) || n == 0x2028 ||
  n == 0x2029 || n == 0x202F || n == 0x205F || n == 0x3000 || n == 0xFEFF

/-- Both ends of a character sequence stripped of white space. -/
def trimChars (cs : List Char) : List Char :=
  ((cs.dropWhile isJsSpace).reverse.dropWhile isJsSpace).reverse

/-- The method `s.trim()`. -/
def jsTrim (s : String) : String := String.mk (trimChars s.data)

/-- The call `v.trim()`: only a string has the method. -/
def callTrim (v : JsVal) : Except JsError String :=
  match v with
  | .str s => .ok (jsTrim s)
  | _ => .error (typeError "trim is not a function")

/-- The call `v.filter(keep)`: only an array has the method (an own member
named `filter` of a parsed object is no function). -/
def callFilter (v : JsVal) (keep : JsVal → Bool) : Except JsError (List JsVal) :=
  match v with
  | .arr items => .ok (items.filter keep)
  | _ => .error (typeError "filter is not a function")

/-- The call `Object.keys(v)` as far as it is observed: it throws on `null`. -/
def objectKeys (v : JsVal) : Except JsError Unit :=
  match v with
  | .null => .error (typeError "Cannot convert undefined or null to object")
  | _ => .ok ()

/-- The test `'photo' in v` as far as it is observed: it throws unless `v` is
an object or an array. -/
def inOperator (v : JsVal) : Except JsError Unit :=
  match v with
  | .arr _ => .ok ()
  | .obj _ => .ok ()
  | _ => .error (typeError "Cannot use the in operator on a non-object")

/-! ## The platform and the network -/

/-- Built-ins of the browser the script calls and this development does not
define: they are parameters of every statement. -/
structure Platform where
  /-- The `protocol` of `new URL(s)`, `none` when the constructor throws. -/
  urlProtocol : String → Option String
  /-- The call `isNaN(v)`; the conversion to a number may throw. -/
  isNaN : JsVal → Except JsError Bool
  /-- The call `v.toLocaleString()`. -/
  toLocaleString : JsVal → Except JsError String

/-- A request the script issues, with the text interpolated into its path and
the payload of an update. -/
inductive Request where
  | userMe
  | shelves
  | products (shelfId : String)
  | updateDescriptions (shelfId : String) (description : String)
  | updateImages (shelfId : String) (fileSize : Nat)
  deriving Repr, DecidableEq, Inhabited

/-- A response: its status and what `response.json()` settles to. -/
structure Response where
  status : Nat
  json : Except JsError JsVal

/-- The getter `response.ok`: the status is in the range 200 to 299. -/
def Response.ok (r : Response) : Bool := 200 ≤ r.status && r.status ≤ 299

/-- What a `fetch` settles to: a response, or the error it rejects with (the
abort raised by the 15 second timer, a network failure). -/
abbrev FetchOutcome := Except JsError Response

/-- The rejection of a fetch whose `AbortController` fired. -/
def abortError : JsError := ⟨"AbortError", "The user aborted a request."⟩

/-- The surroundings of a run: the page address, the platform, and the answer
of the network to the `n`-th request issued (counted from 0). -/
structure Env where
  platform : Platform
  pathname : String
  respond : Nat → Request → FetchOutcome

/-! ## View-models: what the script writes into the page -/

/-- Result of `createProductCard`: a product card with the image it shows
(`none` for the placeholder), or the error card with its message. -/
inductive ProductCard where
  | card (image : Option String) (title : String) (price : String) (productId : JsVal)
  | errorCard (message : String)
  deriving Repr, Inhabited

/-- Result of `createShelfCard`: the header texts, the count shown, the product
cards shown, and the number in the line "... and k more" when that line is
present. -/
structure ShelfCard where
  title : String
  shelfId : String
  productCount : Nat
  products : List ProductCard
  more : Option Nat
  deriving Repr, Inhabited

/-- Content of the element `shelves-container`. -/
inductive Container where
  | untouched
  | loadFailed
  | noShelves
  | cards (cs : List ShelfCard)
  deriving Repr, Inhabited

/-- Content of the element `user-info`. -/
inductive UserPanel where
  | untouched
  | loadFailed
  | info (name : String) (id : String)
  deriving Repr, Inhabited

/-- An alert `showAlert` inserts. -/
structure Alert where
  message : String
  type : String
  deriving Repr, DecidableEq, Inhabited

/-- Which update a result is reported for. -/
inductive UpdateType where
  | description
  | image
  deriving Repr, DecidableEq, Inhabited

/-- What `showUpdateResults` puts into the review dialog: the two counts after
their `|| 0` default, and the update type. -/
structure Review where
  successCount : JsVal
  failedCount : JsVal
  updateType : UpdateType
  deriving Repr, Inhabited

/-- The fields of the application object, the parts of the page the methods
write, the requests issued so far (oldest first) and the rejections of calls
nobody awaits. The loading overlay is the busy flag. -/
structure App where
  currentShelfId : JsVal
  userInfo : JsVal
  shelves : JsVal
  container : Container
  userPanel : UserPanel
  loading : Bool
  alerts : List Alert
  updateModalShown : Bool
  review : Option Review
  requests : List Request
  unhandled : List JsError
  deriving Repr, Inhabited

/-- The state the constructor leaves, before any load. -/
def App.initial : App where
  currentShelfId := .null
  userInfo := .null
  shelves := .arr []
  container := .untouched
  userPanel := .untouched
  loading := false
  alerts := []
  updateModalShown := false
  review := none
  requests := []
  unhandled := []

/-! ## Effects -/

/-- A method body: it reads the surroundings, changes the state, and either
returns or throws; what it wrote before throwing stays written. -/
def Eff (α : Type) : Type := Env → App → Except JsError α × App

namespace Eff

/-- Return a value. -/
def ret {α : Type} (a : α) : Eff α := fun _ s => (.ok a, s)

/-- Sequencing: a throw skips the rest. -/
def andThen {α β : Type} (m : Eff α) (f : α → Eff β) : Eff β := fun env s =>
  match m env s with
  | (.ok a, s') => f a env s'
  | (.error e, s') => (.error e, s')

instance : Monad Eff where
  pure := ret
  bind := andThen

/-- The statement `throw e`. -/
def raise {α : Type} (e : JsError) : Eff α := fun _ s => (.error e, s)

/-- A computation without effect on the state. -/
def lift {α : Type} (x : Except JsError α) : Eff α := fun _ s => (x, s)

/-- The statement `try body catch (e) handler`. -/
def tryCatch {α : Type} (body : Eff α) (handler : JsError → Eff α) : Eff α := fun env s =>
  match body env s with
  | (.ok a, s') => (.ok a, s')
  | (.error e, s') => handler e env s'

/-- The statement `try body finally cleanup`. -/
def tryFinally {α : Type} (body : Eff α) (cleanup : Eff Unit) : Eff α := fun env s =>
  match body env s with
  | (r, s') =>
    match cleanup env s' with
    | (.ok _, s'') => (r, s'')
    | (.error e, s'') => (.error e, s'')

/-- A call of an async method that is not awaited: its effects happen, its
rejection is nobody's to catch. The call is run to completion in place; what it
writes (the shelf container, the product requests) is disjoint from what the
caller writes afterwards. -/
def detach (m : Eff Unit) : Eff Unit := fun env s =>
  match m env s with
  | (.ok _, s') => (.ok (), s')
  | (.error e, s') => (.ok (), { s' with unhandled := s'.unhandled ++ [e] })

/-- The call `fetch(...)`: the request is logged and the network answers. -/
def fetch (req : Request) : Eff Response := fun env s =>
  (env.respond s.requests.length req, { s with requests := s.requests ++ [req] })

/-- A write to the state. -/
def update (f : App → App) : Eff Unit := fun _ s => (.ok (), f s)

/-- A read of the state. -/
def state : Eff App := fun _ s => (.ok s, s)

/-- A read of the surroundings. -/
def surroundings : Eff Env := fun env s => (.ok env, s)

end Eff

/-! ## Product cards -/

/-- The method `isValidImageUrl`: the URL constructor accepts the text and the
protocol is `http:` or `https:`. -/
def isValidImageUrl (pf : Platform) (url : String) : Bool :=
  match pf.urlProtocol url with
  | some protocol => protocol == "http:" || protocol == "https:"
  | none => false

/-- One operand `(x || '').trim()` of the chain, for a read that found data or
nothing. -/
def trimOrEmpty (x : Option JsVal) : Except JsError String :=
  callTrim (orElse x (.str ""))

/-- What the read of a candidate field finds: nothing, a parsed value, or an
inherited method. -/
inductive Candidate where
  | absent
  | value (v : JsVal)
  | method
  deriving Repr, Inhabited

/-- A read that found data or nothing, as a candidate. -/
def Candidate.ofData : Option JsVal → Candidate
  | none => .absent
  | some v => .value v

/-- Whether `v.k` is an inherited method, for the names of the photo reads
(`medium`, `large`, `small`, `extra_small`): every string has the method
`small` of `String.prototype`; arrays, objects, numbers and booleans inherit
none of the four. -/
def inheritsMethod (v : JsVal) (k : String) : Bool :=
  match v with
  | .str _ => k == "small"
  | _ => false

/-- The optional read `x?.k` of a photo member: nothing when `x` is `undefined`
or `null`, the inherited method when there is one, the own data member
otherwise. -/
def readMember (x : Option JsVal) (k : String) : Candidate :=
  match x with
  | none => .absent
  | some v => if inheritsMethod v k then .method else Candidate.ofData (prop v k)

/-- One operand `(c || '').trim()` of the chain: a method is truthy and has no
`trim`, so the call throws. -/
def Candidate.trimmed : Candidate → Except JsError String
  | .absent => trimOrEmpty none
  | .value v => trimOrEmpty (some v)
  | .method => .error (typeError "trim is not a function")

/-- The six candidate reads of `createProductCard`, in the order written:
`photo?.medium`, `photo?.large`, `photo?.small`, `photo?.extra_small`, `image`,
`images?.[0]`. They are read after the guard that rejects `null`. -/
def imageCandidates (product : JsVal) : List Candidate :=
  [ readMember (prop product "photo") "medium",
    readMember (prop product "photo") "large",
    readMember (prop product "photo") "small",
    readMember (prop product "photo") "extra_small",
    Candidate.ofData (prop product "image"),
    Candidate.ofData (optIndex0 (prop product "images")) ]

/-- The chain `a || b || ... || ''` over text operands: the first operand that
is not the empty text, operands after it are not evaluated, an operand that
throws ends the evaluation. -/
def orChain : List (Except JsError String) → Except JsError String
  | [] => .ok ""
  | c :: rest =>
    match c with
    | .error e => .error e
    | .ok t => if t ≠ "" then .ok t else orChain rest

/-- The constant `imageUrl` of `createProductCard`. -/
def imageUrlOf (product : JsVal) : Except JsError String :=
  orChain ((imageCandidates product).map Candidate.trimmed)

/-- The constant `title` of `createProductCard`. -/
def titleOf (product : JsVal) : Except JsError String :=
  callTrim (orElse (orOpt (prop product "title") (prop product "name")) (.str "محصول بدون نام"))

/-- The constant `price` of `createProductCard`. -/
def priceOf (pf : Platform) (product : JsVal) : Except JsError String :=
  match prop product "price" with
  | none => .ok "قیمت موجود نیست"
  | some p =>
    if truthy p then do
      if (← pf.isNaN p) then pure "قیمت موجود نیست"
      else do
        let t ← pf.toLocaleString p
        pure (t ++ " تومان")
    else .ok "قیمت موجود نیست"

/-- The choice made for `imageHtml`: the image tag for a non-empty `imageUrl`
that `isValidImageUrl` accepts, the placeholder otherwise. -/
def imageHtml (pf : Platform) (imageUrl : String) : Option String :=
  if imageUrl ≠ "" && isValidImageUrl pf imageUrl then some imageUrl else none

/-- The method `createProductCard`; whatever its body throws ends in the error
card. -/
def createProductCard (pf : Platform) (product : JsVal) : ProductCard :=
  let body : Except JsError ProductCard :=
    if !truthy product || !typeofObject product then
      .ok (.errorCard "Invalid product data")
    else do
      let imageUrl ← imageUrlOf product
      let title ← titleOf product
      let price ← priceOf pf product
      let productId := orElse (prop product "id") (.str "unknown")
      let _ ← toText productId
      pure (.card (imageHtml pf imageUrl) title price productId)
  match body with
  | .ok card => card
  | .error _ => .errorCard "Error loading product"

/-- The image a card shows, `none` for a placeholder or an error card. -/
def ProductCard.image : ProductCard → Option String
  | .card image _ _ _ => image
  | .errorCard _ => none

/-! ## Shelf cards -/

/-- The method `createShelfCard`. The header line needs the texts of
`shelf.title || shelf.name` and of `shelf.id`; the inspection of the first
product applies `Object.keys` and `in` to it. -/
def createShelfCard (pf : Platform) (shelf : JsVal) (products : List JsVal) :
    Except JsError ShelfCard := do
  let title ← getProp shelf "title"
  let name ← getProp shelf "name"
  let _ ← toTextOpt (orOpt title name)
  let shelfId ← toTextOpt (prop shelf "id")
  match products.head? with
  | some firstProduct =>
    objectKeys firstProduct
    inOperator firstProduct
  | none => pure ()
  let productCount := products.length
  let productsHtml := (products.take 6).map (createProductCard pf)
  let moreProductsText := if products.length > 6 then some (products.length - 6) else none
  let heading ← toText (orElse (orOpt title name) (.str "قفسه بدون نام"))
  pure
    { title := heading
      shelfId := shelfId
      productCount := productCount
      products := productsHtml
      more := moreProductsText }

/-- The overflow a card reports: the number in its last line, 0 without one. -/
def ShelfCard.overflowCount (card : ShelfCard) : Nat := card.more.getD 0

/-! ## Loading the catalog -/

/-- The filter callback of `loadShelfProducts`: an item is dropped when
`!product || typeof product !== 'object'`. -/
def validProduct (product : JsVal) : Bool :=
  !(!truthy product || !typeofObject product)

/-- The part of `loadShelfProducts` after the body is parsed: the inspection
of the raw data, the unwrapping `productsData.data || productsData || []`, the
filter. -/
def processProductsData (productsData : JsVal) : Except JsError (List JsVal) := do
  if typeofObject productsData then objectKeys productsData
  let data ← getProp productsData "data"
  let processedProducts := orElse data (orElse (some productsData) (.arr []))
  callFilter processedProducts validProduct

/-- The method `loadShelfProducts`. The abort of the 15 second timer is one of
the rejections of the fetch. Every branch of the catch block interpolates
`shelfId` into its message before `return []`, so the block throws where that
conversion throws. -/
def loadShelfProducts (shelfId : Option JsVal) : Eff (List JsVal) :=
  Eff.tryCatch
    (do
      let idText ← Eff.lift (toTextOpt shelfId)
      let response ← Eff.fetch (.products idText)
      if !response.ok then
        pure []
      else
        match response.json with
        | .error _ => pure []
        | .ok productsData => Eff.lift (processProductsData productsData))
    (fun _ => do
      let _ ← Eff.lift (toTextOpt shelfId)
      pure [])

/-- The test `this.shelves.length === 0`. -/
def lengthIsZero : JsVal → Bool
  | .arr items => items.isEmpty
  | .str s => s == ""
  | .obj ps =>
    match lookupProp ps "length" with
    | some (.num n) => n == 0
    | _ => false
  | _ => false

/-- The values a `for ... of` loop visits: the elements of an array, the
characters of a string; anything else is not iterable. -/
def iterate : JsVal → Except JsError (List JsVal)
  | .arr items => .ok items
  | .str s => .ok (s.data.map fun c => .str (String.mk [c]))
  | _ => .error (typeError "object is not iterable")

/-- The loop of `displayShelves`, with the cards appended so far. -/
def displayLoop : List JsVal → List ShelfCard → Eff (List ShelfCard)
  | [], shelvesHtml => pure shelvesHtml
  | shelf :: rest, shelvesHtml => do
    let shelfId ← Eff.lift (getProp shelf "id")
    let products ← loadShelfProducts shelfId
    let env ← Eff.surroundings
    let card ← Eff.lift (createShelfCard env.platform shelf products)
    displayLoop rest (shelvesHtml ++ [card])

/-- The method `displayShelves`. -/
def displayShelves : Eff Unit := do
  let app ← Eff.state
  if !truthy app.shelves || lengthIsZero app.shelves then
    Eff.update fun s => { s with container := .noShelves }
  else do
    let shelves ← Eff.lift (iterate app.shelves)
    let shelvesHtml ← displayLoop shelves []
    Eff.update fun s => { s with container := .cards shelvesHtml }

/-- The method `loadShelves`; `displayShelves` is called without `await`. -/
def loadShelves : Eff Unit :=
  Eff.tryCatch
    (do
      let response ← Eff.fetch .shelves
      if !response.ok then
        Eff.raise (newError "Failed to load shelves")
      else do
        let shelvesData ← Eff.lift response.json
        let data ← Eff.lift (getProp shelvesData "data")
        Eff.update fun s =>
          { s with shelves := orElse data (orElse (some shelvesData) (.arr [])) }
        Eff.detach displayShelves)
    (fun _ => Eff.update fun s => { s with container := .loadFailed })

/-- The method `displayUserInfo`. -/
def displayUserInfo : Eff Unit := do
  let app ← Eff.state
  if truthy app.userInfo then do
    let name ← Eff.lift (toText (orElse
      (orOpt (prop app.userInfo "name") (prop app.userInfo "first_name")) (.str "موجود نیست")))
    let id ← Eff.lift (toText (orElse
      (orOpt (prop app.userInfo "id") (prop app.userInfo "user_id")) (.str "موجود نیست")))
    Eff.update fun s => { s with userPanel := .info name id }
  else pure ()

/-- The method `loadUserInfo`. -/
def loadUserInfo : Eff Unit :=
  Eff.tryCatch
    (do
      let response ← Eff.fetch .userMe
      if !response.ok then
        Eff.raise (newError "Failed to load user info")
      else do
        let userInfo ← Eff.lift response.json
        Eff.update fun s => { s with userInfo := userInfo }
        displayUserInfo)
    (fun _ => Eff.update fun s => { s with userPanel := .loadFailed })

/-- The method `loadDashboardData`. -/
def loadDashboardData : Eff Unit := do
  loadUserInfo
  loadShelves

/-! ## The update workflow -/

/-- The method `showLoading`. -/
def showLoading (testShow : Bool) : Eff Unit :=
  Eff.update fun s => { s with loading := testShow }

/-- The method `showAlert`. -/
def showAlert (message : String) (type : String) : Eff Unit :=
  Eff.update fun s => { s with alerts := s.alerts ++ [⟨message, type⟩] }

/-- The method `hideModal`, called for the update dialog only: the dialog is
hidden when it has a modal instance, and it is shown only through the instance
`openUpdateModal` creates. -/
def hideModal : Eff Unit :=
  Eff.update fun s => { s with updateModalShown := false }

/-- The method `openUpdateModal`. -/
def openUpdateModal (shelfId : JsVal) : Eff Unit :=
  Eff.update fun s => { s with currentShelfId := shelfId, updateModalShown := true }

/-- The method `refreshData`. -/
def refreshData : Eff Unit := do
  let env ← Eff.surroundings
  if env.pathname == "/dashboard" then do
    showLoading true
    loadDashboardData
    showLoading false
    showAlert "Data refreshed successfully" "success"
  else pure ()

/-- The method `showUpdateResults`. The sum `successCount + failedCount`
converts both operands, which throws where their text conversion throws. -/
def showUpdateResults (result : JsVal) (updateType : UpdateType) : Eff Unit := do
  let updated ← Eff.lift (getProp result "updated_count")
  let successCount := orElse updated (.num 0)
  let failed ← Eff.lift (getProp result "failed_count")
  let failedCount := orElse failed (.num 0)
  let _ ← Eff.lift (toText successCount)
  let _ ← Eff.lift (toText failedCount)
  Eff.update fun s => { s with review := some ⟨successCount, failedCount, updateType⟩ }

/-- The statements both update handlers run once the form is accepted, from
`showLoading(true)` to the `finally`; the handlers differ in the request, the
update type, the fallback text of the thrown error and the label of the alert. -/
def submitUpdate (request : String → Request) (updateType : UpdateType)
    (fallback : String) (label : String) : Eff Unit := do
  showLoading true
  Eff.tryFinally
    (Eff.tryCatch
      (do
        let app ← Eff.state
        let idText ← Eff.lift (toText app.currentShelfId)
        let response ← Eff.fetch (request idText)
        let result ← Eff.lift response.json
        let success ← if response.ok then Eff.lift (getProp result "success") else pure none
        if response.ok && truthyOpt success then do
          showUpdateResults result updateType
          hideModal
          refreshData
        else do
          let detail ← Eff.lift (getProp result "detail")
          let message ← Eff.lift (toText (orElse detail (.str fallback)))
          Eff.raise (newError message))
      (fun error => showAlert (label ++ error.message) "danger"))
    (showLoading false)

/-- The method `handleDescriptionUpdate`, for the text of the form field
`description`. -/
def handleDescriptionUpdate (description : String) : Eff Unit := do
  let app ← Eff.state
  if !truthy app.currentShelfId then
    showAlert "Error: No shelf selected" "danger"
  else if jsTrim description == "" then
    showAlert "لطفاً توضیحاتی وارد کنید" "warning"
  else
    submitUpdate (fun idText => .updateDescriptions idText description) .description
      "Failed to update descriptions" "خطا در بروزرسانی توضیحات: "

/-- The method `handleImageUpdate`, for the size of the file in the form field
`image` (`none` when the field holds no file). -/
def handleImageUpdate (imageFile : Option Nat) : Eff Unit := do
  let app ← Eff.state
  if !truthy app.currentShelfId then
    showAlert "Error: No shelf selected" "danger"
  else
    match imageFile with
    | none => showAlert "لطفاً یک فایل تصویری انتخاب کنید" "warning"
    | some size =>
      if size == 0 then
        showAlert "لطفاً یک فایل تصویری انتخاب کنید" "warning"
      else
        submitUpdate (fun idText => .updateImages idText size) .image
          "Failed to update images" "Error updating images: "

/-! ## Reference definitions and sample inputs -/

/-- A structured record in the words of the specification: not `null`, not a
scalar. -/
def isRecord : JsVal → Bool
  | .arr _ => true
  | .obj _ => true
  | _ => false

/-- The reference normaliser of the specification: the records of `v.data`
when `v` is an object whose `data` is a sequence, the records of `v` when `v`
is a sequence, nothing for any other value. -/
def referenceNormalise (v : JsVal) : List JsVal :=
  match v with
  | .obj ps =>
    match lookupProp ps "data" with
    | some (.arr items) => items.filter isRecord
    | _ => []
  | .arr items => items.filter isRecord
  | _ => []

/-- The failing outcomes of a request: the fetch rejects (the abort of the
timer, a network error), the status is no success, or the body of a success
fails to parse. -/
def isFailure : FetchOutcome → Bool
  | .error _ => true
  | .ok response =>
    !response.ok ||
      (match response.json with
       | .error _ => true
       | .ok _ => false)

/-- The product list a products request with the given outcome leads to. -/
def productsOf (outcome : FetchOutcome) : List JsVal :=
  match outcome with
  | .error _ => []
  | .ok response =>
    if response.ok then
      match response.json with
      | .ok productsData =>
        (match processProductsData productsData with
         | .ok products => products
         | .error _ => [])
      | .error _ => []
    else []

/-- A stand-in for the URL constructor at the inputs of the examples: it reads
the scheme (a letter, then letters, digits, `+`, `-`, `.`, up to a colon) and
accepts the text when `//` and one more character follow the colon. -/
def sampleUrlProtocol (s : String) : Option String :=
  match s.data.span (fun c => c.isAlphanum || c == '+' || c == '-' || c == '.') with
  | (c :: scheme, ':' :: '/' :: '/' :: _ :: _) =>
    if c.isAlpha then some (String.mk ((c :: scheme).map Char.toLower) ++ ":") else none
  | _ => none

/-- A platform for the examples: numbers are numbers, everything else is not,
and the local text of a value is its text. -/
def samplePlatform : Platform where
  urlProtocol := sampleUrlProtocol
  isNaN := fun v =>
    match v with
    | .num _ => .ok false
    | _ => .ok true
  toLocaleString := toText

/-- Surroundings for the examples: the dashboard page over a given network. -/
def sampleEnv (respond : Nat → Request → FetchOutcome) : Env :=
  ⟨samplePlatform, "/dashboard", respond⟩

/-- The text a candidate field holds: `none` when the field is absent or holds
no string. -/
def candidateText : Candidate → Option String
  | .value (.str s) => some s
  | _ => none

/-- The text of a candidate field that is a string or absent: `some none` for
an absent field, `some (some s)` for the string `s`, and `none` for a field
that holds anything else. -/
def Candidate.asText : Candidate → Option (Option String)
  | .absent => some none
  | .value (.str s) => some (some s)
  | _ => none

/-- The choice of the specification among the texts of the candidate fields,
given in priority order: the first that is not empty once trimmed, trimmed. -/
def chosenCandidate (fields : List (Option String)) : Option String :=
  ((fields.filterMap id).map jsTrim).find? (fun t => t != "")

/-- The texts among the six candidate fields of a product. -/
def candidateTexts (product : JsVal) : List String :=
  (imageCandidates product).filterMap candidateText

/-- A product whose medium photo is no URL and whose small photo is one. -/
def productWithBadMedium : JsVal :=
  .obj [("id", .num 9), ("title", .str "Pen"),
    ("photo", .obj [("medium", .str "not a url"), ("small", .str "http://x/s.jpg")])]

/-- A product whose only non-empty candidate is the small photo. -/
def productWithSmallOnly : JsVal :=
  .obj [("id", .num 9), ("title", .str "Pen"),
    ("photo", .obj [("medium", .str "  "), ("small", .str " http://x/s.jpg ")])]

/-- A product none of whose candidates is a URL. -/
def productWithoutImage : JsVal :=
  .obj [("id", .num 9), ("title", .str "Pen"),
    ("photo", .obj [("medium", .str "m.jpg")]), ("image", .str "ftp://x/a")]

/-- A field that is absent or holds a scalar (`null`, a boolean, a number, a
string). -/
def isScalarOrAbsent : Option JsVal → Bool
  | some (.arr _) => false
  | some (.obj _) => false
  | _ => true

/-- A shelf record: an object whose `title`, `name` and `id` are scalars or
absent. -/
def isShelfRecord : JsVal → Bool
  | .obj ps =>
    isScalarOrAbsent (lookupProp ps "title") && isScalarOrAbsent (lookupProp ps "name") &&
      isScalarOrAbsent (lookupProp ps "id")
  | _ => false

/-- The text of `shelf.id`, as interpolated into the path of the products
request. -/
def shelfIdText (shelf : JsVal) : String :=
  match toTextOpt (prop shelf "id") with
  | .ok t => t
  | .error _ => ""

/-- The card `createShelfCard` returns for a shelf and a product list. -/
def shelfCardOf (pf : Platform) (shelf : JsVal) (products : List JsVal) : ShelfCard :=
  match createShelfCard pf shelf products with
  | .ok card => card
  | .error _ => default

/-- The cards the specification expects for a shelf list: one per shelf, in the
order of the list, the `i`-th built from the `i`-th shelf and from the products
its own request leads to; `n` counts the requests issued before the first. -/
def expectedCards (pf : Platform) (respond : Nat → Request → FetchOutcome) :
    Nat → List JsVal → List ShelfCard
  | _, [] => []
  | n, shelf :: rest =>
    shelfCardOf pf shelf (productsOf (respond n (.products (shelfIdText shelf)))) ::
      expectedCards pf respond (n + 1) rest

/-- Seven products, numbered 1 to 7. -/
def sevenProducts : List JsVal :=
  [1, 2, 3, 4, 5, 6, 7].map fun n => .obj [("id", .num n)]

/-- Two shelves. -/
def shelfA : JsVal := .obj [("id", .num 1), ("title", .str "A")]

/-- The second of two shelves. -/
def shelfB : JsVal := .obj [("id", .num 2), ("title", .str "B")]

/-- The body of the scenario of the specification: one product with a medium
photo. -/
def penBody : JsVal :=
  .obj [("data", .arr [.obj [("id", .num 9), ("title", .str "Pen"),
    ("photo", .obj [("medium", .str "http://x/m.jpg")])]])]

/-- A network that answers the products request of shelf 1 with the pen and
fails the products request of shelf 2 by the abort of its timer. -/
def penNetwork : Nat → Request → FetchOutcome := fun _ req =>
  match req with
  | .products "1" => .ok ⟨200, .ok penBody⟩
  | .products _ => .error abortError
  | .shelves => .ok ⟨200, .ok (.arr [shelfA, shelfB])⟩
  | _ => .ok ⟨200, .ok (.obj [])⟩

/-- A submission of one of the two update forms: the text of the description
field, or the size of the chosen file (`none` when the field holds no file). -/
inductive Submission where
  | description (text : String)
  | image (imageFile : Option Nat)
  deriving Repr, DecidableEq, Inhabited

/-- The handler the form of a submission runs. -/
def handleUpdate : Submission → Eff Unit
  | .description text => handleDescriptionUpdate text
  | .image imageFile => handleImageUpdate imageFile

/-- A submission that passes the local validation of its handler. -/
def Submission.accepted : Submission → Bool
  | .description text => jsTrim text != ""
  | .image none => false
  | .image (some size) => size != 0

/-- The request a handler issues for a submission and the text of the selected
shelf id. -/
def Submission.request (sub : Submission) (idText : String) : Request :=
  match sub with
  | .description text => .updateDescriptions idText text
  | .image imageFile => .updateImages idText (imageFile.getD 0)

/-- The update type a handler passes to `showUpdateResults`. -/
def Submission.updateType : Submission → UpdateType
  | .description _ => .description
  | .image _ => .image

/-- The generic message a handler throws when the response carries no detail. -/
def Submission.fallback : Submission → String
  | .description _ => "Failed to update descriptions"
  | .image _ => "Failed to update images"

/-- The label a handler puts before the message of the error it surfaces. -/
def Submission.label : Submission → String
  | .description _ => "خطا در بروزرسانی توضیحات: "
  | .image _ => "Error updating images: "

/-- The state a submission ends in on the success path: the request is logged,
the review dialog holds the counts, the update dialog is closed, `refreshData`
has run, and the overlay is hidden. -/
def successState (env : Env) (app : App) (req : Request) (result : JsVal)
    (updateType : UpdateType) : App :=
  { (refreshData env
      { app with
        loading := true
        requests := app.requests ++ [req]
        review := some ⟨orElse (prop result "updated_count") (.num 0),
          orElse (prop result "failed_count") (.num 0), updateType⟩
        updateModalShown := false }).2 with
    loading := false }

/-- The state a submission ends in on failure: the request is logged, one
alert of type `danger` carries the text, the overlay is hidden, and nothing
else has changed. -/
def failedState (app : App) (req : Request) (text : String) : App :=
  { app with
    requests := app.requests ++ [req]
    alerts := app.alerts ++ [⟨text, "danger"⟩]
    loading := false }

/-- The message of the error a handler ends up catching when it evaluates
`new Error(x)` for a value whose text conversion gave `e`: the text, or the
message of the `TypeError` the conversion threw. -/
def surfacedText (e : Except JsError String) : String :=
  match e with
  | .ok text => text
  | .error thrown => thrown.message

/-- The test the handlers make on a response: the status is a success and the
parsed body has a truthy `success` member. -/
def reportsSuccess (r : Response) : Bool :=
  r.ok &&
    (match r.json with
     | .ok result => truthyOpt (prop result "success")
     | .error _ => false)

/-- A success response whose flag is the number 1, not the boolean `true`. -/
def flagOneBody : JsVal :=
  .obj [("success", .num 1), ("updated_count", .num 3), ("failed_count", .num 1)]

/-- The failure response of the scenario of the specification. -/
def quotaBody : JsVal :=
  .obj [("success", .bool false), ("detail", .str "quota exceeded")]

/-- The state of the dashboard with the update dialog open for shelf 5. -/
def dialogOpen : App :=
  { App.initial with currentShelfId := .num 5, updateModalShown := true }

/-- A network that answers every update with the given response and the catalog
requests with an empty catalog. -/
def updateNetwork (response : FetchOutcome) : Nat → Request → FetchOutcome := fun _ req =>
  match req with
  | .updateDescriptions _ _ => response
  | .updateImages _ _ => response
  | .shelves => .ok ⟨200, .ok (.arr [])⟩
  | _ => .ok ⟨200, .ok (.obj [])⟩

/-- The part of the state the update workflow owns: the selected shelf, the
overlay, the alerts, the update dialog and the review dialog. -/
def App.session (s : App) : JsVal × Bool × List Alert × Bool × Option Review :=
  (s.currentShelfId, s.loading, s.alerts, s.updateModalShown, s.review)

/-- A method body that leaves the session part of the state as it finds it. -/
def Eff.Quiet {α : Type} (m : Eff α) : Prop :=
  ∀ (env : Env) (s : App), (m env s).2.session = s.session

/-- The integer nearest to `n / d`, an exact half going to the even neighbour:
the rounding of double-precision arithmetic. -/
def roundHalfEven (n d : Nat) : Nat :=
  let q := n / d
  let r := n % d
  if 2 * r < d then q
  else if 2 * r > d then q + 1
  else if q % 2 = 0 then q else q + 1

/-- The least `k`, searched upward from `k` with the given fuel, for which
`n * 2^k / d` reaches `2^52`: the binary point that leaves 53 significant
bits. -/
def shiftFor : Nat → Nat → Nat → Nat → Nat
  | 0, _, _, k => k
  | fuel + 1, n, d, k => if d * 2 ^ 52 ≤ n * 2 ^ k then k else shiftFor fuel n d (k + 1)

/-- The double nearest to the quotient `n / d`, as a pair `(m, k)` standing
for `m / 2^k`; it is the result of the correctly rounded division and
multiplication for `n / d < 2^53` that is 0 or at least `2^-1022`, which
covers the quotients and products the success rate forms from non-negative
counts with a total up to `2^1022`; a smaller quotient has fewer bits in the
machine, and its rate is 0 there as it is here. -/
def toDouble (n d : Nat) : Nat × Nat :=
  if n = 0 then (0, 0)
  else
    let k := shiftFor (d + 53) n d 0
    (roundHalfEven (n * 2 ^ k) d, k)

/-- The expression `totalCount > 0 ? Math.round((successCount / totalCount) *
100) : 0` of `showUpdateResults` for integer counts: the quotient and the
product are rounded to doubles, and `Math.round` takes the floor of the product
plus one half. -/
def successRate (successCount totalCount : Int) : Int :=
  if totalCount > 0 then
    let quotient := toDouble successCount.natAbs totalCount.natAbs
    let product := toDouble (quotient.1 * 100) (2 ^ quotient.2)
    let signed : Int := if successCount < 0 then -(product.1 : Int) else product.1
    (2 * signed + 2 ^ product.2) / 2 ^ (product.2 + 1)
  else 0

/-- The least `e`, searched upward from `e` with the given fuel, with
`n < 2^(53 + e)`: the number of low bits a double cannot hold. -/
def excessFor : Nat → Nat → Nat → Nat
  | 0, _, e => e
  | fuel + 1, n, e => if n < 2 ^ (53 + e) then e else excessFor fuel n (e + 1)

/-- The double nearest to a natural number: the number itself below `2^53`, and
from there on the number rounded to 53 significant bits. -/
def nearestDouble (n : Nat) : Nat :=
  let e := excessFor n n 0
  roundHalfEven n (2 ^ e) * 2 ^ e

/-- The value of a sum of integer-valued doubles: an integer-valued double, or
an infinity with its sign. -/
inductive DoubleSum where
  | finite (n : Int)
  | infinite (negative : Bool)
  deriving DecidableEq, Repr, Inhabited

/-- The sum `a + b` of two integer-valued doubles: the exact sum rounded to a
double, an infinity when the rounded magnitude reaches `2^1024`. -/
def addDouble (a b : Int) : DoubleSum :=
  if 2 ^ 1024 ≤ nearestDouble (a + b).natAbs then .infinite (decide (a + b < 0))
  else if a + b < 0 then .finite (-(nearestDouble (a + b).natAbs : Int))
  else .finite (nearestDouble (a + b).natAbs)

/-- The total `successCount + failedCount` the review dialog shows, for counts
that are numbers (on other operands `+` concatenates or coerces). -/
def Review.totalCount (review : Review) : Option DoubleSum :=
  match review.successCount, review.failedCount with
  | .num s, .num f => some (addDouble s f)
  | _, _ => none

/-- The success rate the review dialog shows, for counts that are numbers. With
an infinite total the rate is 0: `totalCount > 0` fails for the negative
infinity, and for the positive one the quotient of a count by it is zero. -/
def Review.successRate (review : Review) : Option Int :=
  match review.successCount, review.failedCount with
  | .num s, .num f =>
    match addDouble s f with
    | .finite t => some (BasalamApp.successRate s t)
    | .infinite _ => some 0
  | _, _ => none

/-- A count as the specification reads it from a response: an absent member
counts as 0, a non-negative integer as itself. -/
def countOf : Option JsVal → Option Nat
  | none => some 0
  | some (.num n) => if 0 ≤ n then some n.toNat else none
  | some _ => none

/-- The success response of the scenario of the specification: 3 updated,
1 failed. -/
def threeOfFourBody : JsVal :=
  .obj [("success", .bool true), ("updated_count", .num 3), ("failed_count", .num 1)]

/-- A success response whose exact rate is 57.5 percent. -/
def tieBody : JsVal :=
  .obj [("success", .bool true), ("updated_count", .num 23), ("failed_count", .num 17)]

/-- A success response whose counts add up to `2^53 + 1`, which no double
holds. -/
def bigSumBody : JsVal :=
  .obj [("success", .bool true), ("updated_count", .num 9007199254740991),
    ("failed_count", .num 2)]

/-- A product whose photo is a string. -/
def productWithTextPhoto : JsVal :=
  .obj [("id", .num 9), ("title", .str "Pen"), ("photo", .str "http://x/p.jpg")]

/-- A product whose only candidate that is not empty once trimmed is the first
element of `images`. -/
def productWithImagesOnly : JsVal :=
  .obj [("id", .num 9), ("title", .str "Pen"),
    ("photo", .obj [("medium", .str "  "), ("small", .str "")]),
    ("image", .str " "), ("images", .arr [.str " http://x/i.jpg "])]

/-- A shelf id whose text conversion throws: an object with an own member
named `toString`. -/
def unprintableId : JsVal := .obj [("toString", .num 1)]

/-- A success response with a total of `8 * 10^15`, whose exact rate lies just
below 79.5 percent. -/
def hugeBody : JsVal :=
  .obj [("success", .bool true), ("updated_count", .num 6359999999999999),
    ("failed_count", .num 1640000000000001)]

/-- A method body that leaves the selected shelf id as it finds it. -/
def Eff.KeepsSelection {α : Type} (m : Eff α) : Prop :=
  ∀ (env : Env) (s : App), (m env s).2.currentShelfId = s.currentShelfId

/-- A network that answers the shelf-list request with status 200 and the given
body, and every other request with an empty list. -/
def shelvesNetwork (body : JsVal) : Nat → Request → FetchOutcome := fun _ req =>
  match req with
  | .shelves => .ok ⟨200, .ok body⟩
  | _ => .ok ⟨200, .ok (.arr [])⟩

/-- A network that answers an update with the success of the scenario and
rejects every request of the reload that follows. -/
def reloadFailsNetwork : Nat → Request → FetchOutcome := fun _ req =>
  match req with
  | .updateDescriptions _ _ => .ok ⟨200, .ok threeOfFourBody⟩
  | .updateImages _ _ => .ok ⟨200, .ok threeOfFourBody⟩
  | _ => .error ⟨"TypeError", "Failed to fetch"⟩

/-! ## Properties of the effect combinators -/

@[simp] theorem Eff.run_pure {α : Type} (a : α) (env : Env) (s : App) :
    (pure a : Eff α) env s = (.ok a, s) := rfl

theorem Eff.run_bind {α β : Type} (m : Eff α) (f : α → Eff β) (env : Env) (s : App) :
    (m >>= f) env s =
      (match m env s with
       | (.ok a, s') => f a env s'
       | (.error e, s') => (.error e, s')) := rfl

@[simp] theorem Eff.run_bind_lift {α β : Type} (x : Except JsError α) (f : α → Eff β)
    (env : Env) (s : App) :
    (Eff.lift x >>= f) env s =
      (match x with
       | .ok a => f a env s
       | .error e => (.error e, s)) := by
  cases x <;> rfl

@[simp] theorem Eff.run_bind_fetch {β : Type} (req : Request) (f : Response → Eff β)
    (env : Env) (s : App) :
    (Eff.fetch req >>= f) env s =
      (match env.respond s.requests.length req with
       | .ok r => f r env { s with requests := s.requests ++ [req] }
       | .error e => (.error e, { s with requests := s.requests ++ [req] })) := by
  rw [Eff.run_bind]
  unfold Eff.fetch
  cases env.respond s.requests.length req <;> rfl

@[simp] theorem Eff.run_lift {α : Type} (x : Except JsError α) (env : Env) (s : App) :
    Eff.lift x env s = (x, s) := rfl

/-! ## Products of one shelf -/

theorem validProduct_eq_isRecord (v : JsVal) : validProduct v = isRecord v := by
  cases v <;> simp [validProduct, isRecord, truthy, typeofObject]

theorem processProductsData_spec (v : JsVal) :
    (match processProductsData v with
     | .ok products => products
     | .error _ => []) = referenceNormalise v := by
  have hf : validProduct = isRecord := funext validProduct_eq_isRecord
  cases v with
  | null => rfl
  | bool b => cases b <;> rfl
  | num n =>
    by_cases hn : n = 0
    · subst hn; rfl
    · simp [processProductsData, typeofObject, getProp, prop, orElse, truthy, hn, callFilter,
        referenceNormalise, bind, Except.bind, pure, Except.pure]
  | str s =>
    by_cases hs : s = ""
    · subst hs; rfl
    · simp [processProductsData, typeofObject, getProp, prop, orElse, truthy, hs, callFilter,
        referenceNormalise, bind, Except.bind, pure, Except.pure]
  | arr items =>
    simp [processProductsData, typeofObject, objectKeys, getProp, prop, orElse, truthy,
      callFilter, referenceNormalise, bind, Except.bind, pure, Except.pure, hf]
  | obj ps =>
    simp only [processProductsData, typeofObject, objectKeys, getProp, prop, referenceNormalise,
      bind, Except.bind, pure, Except.pure, if_true]
    cases hdata : lookupProp ps "data" with
    | none => simp [orElse, truthy, callFilter]
    | some d =>
      cases d with
      | null => simp [orElse, truthy, callFilter]
      | bool b => cases b <;> simp [orElse, truthy, callFilter]
      | num n => by_cases hn : n = 0 <;> simp [orElse, truthy, callFilter, hn]
      | str s => by_cases hs : s = "" <;> simp [orElse, truthy, callFilter, hs]
      | arr items => simp [orElse, truthy, callFilter, hf]
      | obj qs => simp [orElse, truthy, callFilter]

theorem loadShelfProducts_run (shelfId : Option JsVal) (env : Env) (app : App) :
    loadShelfProducts shelfId env app =
      (match toTextOpt shelfId with
       | .error e => (.error e, app)
       | .ok idText =>
         (.ok (productsOf (env.respond app.requests.length (.products idText))),
          { app with requests := app.requests ++ [.products idText] })) := by
  unfold loadShelfProducts Eff.tryCatch
  simp only [Eff.run_bind_lift]
  cases hid : toTextOpt shelfId with
  | error e => rfl
  | ok idText =>
    simp only [Eff.run_bind_fetch]
    cases hr : env.respond app.requests.length (.products idText) with
    | error e => rfl
    | ok response =>
      simp only [productsOf]
      cases hok : response.ok with
      | false => rfl
      | true =>
        simp only [Bool.not_true, Bool.false_eq_true, if_false, if_true]
        cases hj : response.json with
        | error e => rfl
        | ok v =>
          simp only [Eff.run_lift]
          cases processProductsData v <;> rfl

theorem productsOf_failure (outcome : FetchOutcome) (h : isFailure outcome = true) :
    productsOf outcome = [] := by
  cases outcome with
  | error e => rfl
  | ok response =>
    simp only [productsOf]
    cases hok : response.ok with
    | false => rfl
    | true =>
      cases hj : response.json with
      | error e => rfl
      | ok v => simp [isFailure, hok, hj] at h

/-- C1: for a JSON value `v` returned with a success status by the products
endpoint, `loadShelfProducts` returns without throwing and its result is the
reference normaliser applied to `v`: the records of `v.data` when `v` is an
object whose `data` is a sequence, of `v` when `v` is a sequence, nothing
otherwise. -/
theorem loadShelfProducts_normalises (env : Env) (app : App) (shelfId : Option JsVal)
    (idText : String) (response : Response) (v : JsVal)
    (hid : toTextOpt shelfId = .ok idText)
    (hfetch : env.respond app.requests.length (.products idText) = .ok response)
    (hok : response.ok = true) (hjson : response.json = .ok v) :
    (loadShelfProducts shelfId env app).1 = .ok (referenceNormalise v) := by
  rw [loadShelfProducts_run, hid]
  simp only [hfetch, productsOf, hok, hjson, if_true]
  rw [processProductsData_spec]

theorem loadShelfProducts_normalises_witness :
    (loadShelfProducts (some (.num 1))
        (sampleEnv fun _ _ => .ok ⟨200, .ok (.obj [("data",
          .arr [.null, .obj [("id", .num 9)], .num 3, .arr []])])⟩)
        App.initial).1
      = .ok [.obj [("id", .num 9)], .arr []] :=
  loadShelfProducts_normalises _ App.initial (some (.num 1)) "1" ⟨200, .ok (.obj [("data",
          .arr [.null, .obj [("id", .num 9)], .num 3, .arr []])])⟩ _ rfl rfl rfl rfl

/-- C5: whenever the products request of a shelf fails (the fetch rejects, as
on the abort of the 15 second timer or a network error; the status is no
success; the body of a success does not parse), `loadShelfProducts` resolves to
the empty list: it does not reject. The request is the one issued for the shelf
id, whose text is interpolated into its path. -/
theorem loadShelfProducts_failure_empty (env : Env) (app : App) (shelfId : Option JsVal)
    (idText : String) (hid : toTextOpt shelfId = .ok idText)
    (hfail : isFailure (env.respond app.requests.length (.products idText)) = true) :
    (loadShelfProducts shelfId env app).1 = .ok [] := by
  rw [loadShelfProducts_run, hid]
  simp only [productsOf_failure _ hfail]

theorem loadShelfProducts_failure_empty_witness :
    isFailure (.error abortError) = true ∧
    isFailure (.ok ⟨500, .ok (.arr [.obj []])⟩) = true ∧
    isFailure (.ok ⟨200, .error ⟨"SyntaxError", "Unexpected token"⟩⟩) = true ∧
    (loadShelfProducts (some (.num 7)) (sampleEnv fun _ _ => .error abortError) App.initial).1
      = .ok [] :=
  ⟨rfl, rfl, rfl,
    loadShelfProducts_failure_empty (sampleEnv fun _ _ => .error abortError) App.initial
      (some (.num 7)) "7" rfl rfl⟩

/-- A shelf id whose conversion to text throws (an object with an own member
`toString` that is no function): no request is issued, the catch block throws
on its own interpolation of the id, and the call rejects. -/
theorem loadShelfProducts_unprintable_id (env : Env) (app : App) :
    ∃ e, loadShelfProducts (some unprintableId) env app = (.error e, app) := by
  rw [loadShelfProducts_run]
  exact ⟨_, rfl⟩

/-! ## The image of a product card -/

theorem jsTrim_empty : jsTrim "" = "" := by decide

theorem trimOrEmpty_none : trimOrEmpty none = .ok "" := by
  simp [trimOrEmpty, orElse, callTrim, jsTrim_empty]

theorem trimOrEmpty_str (s : String) : trimOrEmpty (some (.str s)) = .ok (jsTrim s) := by
  by_cases hs : s = ""
  · subst hs; simp [trimOrEmpty, orElse, truthy, callTrim]
  · simp [trimOrEmpty, orElse, truthy, callTrim, hs]

theorem trimOrEmpty_nonempty (x : Option JsVal) (u : String)
    (h : trimOrEmpty x = .ok u) (hu : u ≠ "") : ∃ s, x = some (.str s) ∧ u = jsTrim s := by
  cases x with
  | none =>
    rw [trimOrEmpty_none] at h
    exact absurd (Except.ok.inj h).symm hu
  | some v =>
    cases v with
    | str s =>
      rw [trimOrEmpty_str] at h
      exact ⟨s, rfl, (Except.ok.inj h).symm⟩
    | null =>
      simp [trimOrEmpty, orElse, truthy, callTrim, jsTrim_empty] at h
      exact absurd h.symm hu
    | bool b =>
      cases b
      · simp [trimOrEmpty, orElse, truthy, callTrim, jsTrim_empty] at h
        exact absurd h.symm hu
      · simp [trimOrEmpty, orElse, truthy, callTrim] at h
    | num n =>
      by_cases hn : n = 0
      · simp [trimOrEmpty, orElse, truthy, callTrim, jsTrim_empty, hn] at h
        exact absurd h.symm hu
      · simp [trimOrEmpty, orElse, truthy, callTrim, hn] at h
    | arr items => simp [trimOrEmpty, orElse, truthy, callTrim] at h
    | obj ps => simp [trimOrEmpty, orElse, truthy, callTrim] at h

theorem orChain_mem (l : List (Except JsError String)) (u : String)
    (h : orChain l = .ok u) (hu : u ≠ "") : .ok u ∈ l := by
  induction l with
  | nil =>
    simp only [orChain] at h
    exact absurd (Except.ok.inj h).symm hu
  | cons c rest ih =>
    cases c with
    | error e => simp [orChain] at h
    | ok t =>
      simp only [orChain] at h
      by_cases ht : t = ""
      · simp only [ht, ne_eq, not_true_eq_false, if_false] at h
        exact List.mem_cons_of_mem _ (ih h)
      · simp only [ne_eq, ht, not_false_eq_true, if_true] at h
        rw [← Except.ok.inj h]
        exact List.mem_cons_self _ _

theorem Candidate.trimmed_ofData (x : Option JsVal) :
    (Candidate.ofData x).trimmed = trimOrEmpty x := by
  cases x <;> rfl

theorem readMember_obj (ps : List (String × JsVal)) (k : String) :
    readMember (some (.obj ps)) k = Candidate.ofData (lookupProp ps k) := rfl

theorem Candidate.trimmed_of_asText (c : Candidate) (t : Option String)
    (h : c.asText = some t) : c.trimmed = .ok ((t.map jsTrim).getD "") := by
  cases c with
  | absent =>
    simp only [Candidate.asText, Option.some.injEq] at h
    subst h
    exact trimOrEmpty_none
  | value v =>
    cases v with
    | str s =>
      simp only [Candidate.asText, Option.some.injEq] at h
      subst h
      exact trimOrEmpty_str s
    | null => simp [Candidate.asText] at h
    | bool b => simp [Candidate.asText] at h
    | num n => simp [Candidate.asText] at h
    | arr items => simp [Candidate.asText] at h
    | obj ps => simp [Candidate.asText] at h
  | method => simp [Candidate.asText] at h

theorem Candidate.trimmed_nonempty (c : Candidate) (u : String)
    (h : c.trimmed = .ok u) (hu : u ≠ "") : ∃ s, c = .value (.str s) ∧ u = jsTrim s := by
  cases c with
  | absent =>
    simp only [Candidate.trimmed, trimOrEmpty_none] at h
    exact absurd (Except.ok.inj h).symm hu
  | value v =>
    obtain ⟨s, hs, hus⟩ := trimOrEmpty_nonempty (some v) u h hu
    exact ⟨s, by rw [Option.some.inj hs], hus⟩
  | method => simp [Candidate.trimmed] at h

theorem orChain_texts (texts : List (Option String)) :
    orChain (texts.map fun t => .ok ((t.map jsTrim).getD "")) =
      .ok ((chosenCandidate texts).getD "") := by
  induction texts with
  | nil => rfl
  | cons t rest ih =>
    cases t with
    | none =>
      simp only [List.map_cons, Option.map_none', Option.getD_none, orChain, ne_eq,
        not_true_eq_false, if_false, ih]
      rfl
    | some s =>
      simp only [List.map_cons, Option.map_some', Option.getD_some, orChain, ih]
      by_cases hs : jsTrim s = ""
      · simp [chosenCandidate, hs]
      · simp [chosenCandidate, hs]

theorem chosenCandidate_skips (before after : List (Option String)) (s : String)
    (hbefore : ∀ c ∈ before, c = none ∨ ∃ t, c = some t ∧ jsTrim t = "")
    (hs : jsTrim s ≠ "") :
    chosenCandidate (before ++ some s :: after) = some (jsTrim s) := by
  induction before with
  | nil => simp [chosenCandidate, hs]
  | cons c rest ih =>
    have hrest := ih (fun d hd => hbefore d (List.mem_cons_of_mem _ hd))
    rcases hbefore c (List.mem_cons_self _ _) with hc | ⟨t, hc, ht⟩
    · subst hc
      simpa [chosenCandidate] using hrest
    · subst hc
      simpa [chosenCandidate, ht] using hrest

/-- C3: for a product whose six candidate fields `photo.medium`,
`photo.large`, `photo.small`, `photo.extra_small`, `image` and `images[0]` are
strings or absent, the `imageUrl` of `createProductCard` is the first of them,
in that order, that is not empty once trimmed, in its trimmed form (the empty
text when there is none); a candidate preceded only by absent, empty or
white-space fields and not empty once trimmed is the one chosen. -/
theorem imageUrlOf_first_nonempty (product : JsVal)
    (medium large small extraSmall image firstImage : Option String)
    (hmedium : (readMember (prop product "photo") "medium").asText = some medium)
    (hlarge : (readMember (prop product "photo") "large").asText = some large)
    (hsmall : (readMember (prop product "photo") "small").asText = some small)
    (hextra : (readMember (prop product "photo") "extra_small").asText = some extraSmall)
    (himage : (Candidate.ofData (prop product "image")).asText = some image)
    (himages : (Candidate.ofData (optIndex0 (prop product "images"))).asText
      = some firstImage) :
    imageUrlOf product =
        .ok ((chosenCandidate [medium, large, small, extraSmall, image, firstImage]).getD "") ∧
      ∀ (before after : List (Option String)) (s : String),
        [medium, large, small, extraSmall, image, firstImage] = before ++ some s :: after →
        (∀ c ∈ before, c = none ∨ ∃ t, c = some t ∧ jsTrim t = "") →
        jsTrim s ≠ "" →
        imageUrlOf product = .ok (jsTrim s) := by
  have hchain : imageUrlOf product =
      .ok ((chosenCandidate [medium, large, small, extraSmall, image, firstImage]).getD "") := by
    rw [← orChain_texts]
    simp only [imageUrlOf, imageCandidates, List.map_cons, List.map_nil,
      Candidate.trimmed_of_asText _ _ hmedium, Candidate.trimmed_of_asText _ _ hlarge,
      Candidate.trimmed_of_asText _ _ hsmall, Candidate.trimmed_of_asText _ _ hextra,
      Candidate.trimmed_of_asText _ _ himage, Candidate.trimmed_of_asText _ _ himages]
  refine ⟨hchain, ?_⟩
  intro before after s hsplit hbefore hs
  rw [hchain, hsplit, chosenCandidate_skips before after s hbefore hs]
  rfl

theorem imageUrlOf_first_nonempty_witness :
    imageUrlOf productWithImagesOnly = .ok "http://x/i.jpg" ∧
    imageUrlOf productWithBadMedium = .ok "not a url" :=
  ⟨(imageUrlOf_first_nonempty productWithImagesOnly
      (some "  ") none (some "") none (some " ") (some " http://x/i.jpg ")
      rfl rfl rfl rfl rfl rfl).2
      [some "  ", none, some "", none, some " "] [] " http://x/i.jpg " rfl
      (by decide) (by decide),
    (imageUrlOf_first_nonempty productWithBadMedium
      (some "not a url") none (some "http://x/s.jpg") none none none
      rfl rfl rfl rfl rfl rfl).1⟩

theorem text_photo_gives_error_card :
    imageUrlOf productWithTextPhoto = .error (typeError "trim is not a function") ∧
    createProductCard samplePlatform productWithTextPhoto =
      .errorCard "Error loading product" :=
  ⟨rfl, rfl⟩

theorem createProductCard_image (pf : Platform) (product : JsVal) (u : String)
    (h : (createProductCard pf product).image = some u) :
    imageUrlOf product = .ok u ∧ u ≠ "" ∧ isValidImageUrl pf u = true := by
  unfold createProductCard at h
  by_cases hguard : (!truthy product || !typeofObject product) = true
  · simp [hguard, ProductCard.image] at h
  · cases hurl : imageUrlOf product with
    | error e => simp [hguard, hurl, bind, Except.bind, ProductCard.image] at h
    | ok url =>
      cases htitle : titleOf product with
      | error e => simp [hguard, hurl, htitle, bind, Except.bind, ProductCard.image] at h
      | ok title =>
        cases hprice : priceOf pf product with
        | error e =>
          simp [hguard, hurl, htitle, hprice, bind, Except.bind, ProductCard.image] at h
        | ok price =>
          cases hid : toText (orElse (prop product "id") (.str "unknown")) with
          | error e =>
            simp [hguard, hurl, htitle, hprice, hid, bind, Except.bind, ProductCard.image] at h
          | ok idText =>
            simp [hguard, hurl, htitle, hprice, hid, bind, Except.bind, pure, Except.pure,
              ProductCard.image, imageHtml] at h
            obtain ⟨⟨hne, hvalid⟩, hu⟩ := h
            subst hu
            exact ⟨rfl, hne, hvalid⟩

theorem imageUrlOf_mem (product : JsVal) (u : String)
    (h : imageUrlOf product = .ok u) (hu : u ≠ "") :
    ∃ s ∈ candidateTexts product, u = jsTrim s := by
  have hmem := orChain_mem _ u h hu
  rcases List.mem_map.mp hmem with ⟨c, hc, hcu⟩
  rcases Candidate.trimmed_nonempty c u hcu hu with ⟨s, hcs, hus⟩
  refine ⟨s, ?_, hus⟩
  unfold candidateTexts
  exact List.mem_filterMap.mpr ⟨c, hc, by rw [hcs]; rfl⟩

/-- C4: the image a product card shows is either absent (the placeholder) or a
text `isValidImageUrl` accepts; and a product none of whose candidate texts,
once trimmed, is accepted by `isValidImageUrl` gets no image. -/
theorem createProductCard_image_valid (pf : Platform) (product : JsVal) :
    ((createProductCard pf product).image = none ∨
      ∃ u, (createProductCard pf product).image = some u ∧ isValidImageUrl pf u = true) ∧
    ((∀ s ∈ candidateTexts product, isValidImageUrl pf (jsTrim s) = false) →
      (createProductCard pf product).image = none) := by
  constructor
  · cases himg : (createProductCard pf product).image with
    | none => exact Or.inl rfl
    | some u => exact Or.inr ⟨u, rfl, (createProductCard_image pf product u himg).2.2⟩
  · intro hnone
    cases himg : (createProductCard pf product).image with
    | none => rfl
    | some u =>
      obtain ⟨hurl, hu, hvalid⟩ := createProductCard_image pf product u himg
      obtain ⟨s, hs, hus⟩ := imageUrlOf_mem product u hurl hu
      rw [hus, hnone s hs] at hvalid
      exact absurd hvalid (by decide)

theorem createProductCard_image_valid_witness :
    candidateTexts productWithoutImage = ["m.jpg", "ftp://x/a"] ∧
    (createProductCard samplePlatform productWithoutImage).image = none :=
  ⟨rfl, (createProductCard_image_valid samplePlatform productWithoutImage).2 (by decide)⟩

/-- C2, as the code behaves: a product whose first non-empty candidate (the
medium photo) is no URL and whose small photo is a valid `http` URL gets the
placeholder; resolution does not continue to the small photo. -/
theorem image_resolution_stops_at_invalid_candidate :
    isValidImageUrl samplePlatform "not a url" = false ∧
    isValidImageUrl samplePlatform "http://x/s.jpg" = true ∧
    candidateTexts productWithBadMedium = ["not a url", "http://x/s.jpg"] ∧
    imageUrlOf productWithBadMedium = .ok "not a url" ∧
    (createProductCard samplePlatform productWithBadMedium).image = none := by
  refine ⟨by decide, by decide, rfl, rfl, by decide⟩

/-- C2, amended: resolution stops at the first candidate that is not empty once
trimmed, and the card shows no image when `isValidImageUrl` rejects it; and a
product whose medium and large photos are absent, empty or white space, and
whose small photo trims to a text `isValidImageUrl` accepts, gets that trimmed
text as its image, provided its title, price and id render. -/
theorem image_resolution_first_nonempty (pf : Platform) (product : JsVal) :
    (∀ url, imageUrlOf product = .ok url → isValidImageUrl pf url = false →
      (createProductCard pf product).image = none) ∧
    (∀ (s title price idText : String),
      validProduct product = true →
      trimOrEmpty (optProp (prop product "photo") "medium") = .ok "" →
      trimOrEmpty (optProp (prop product "photo") "large") = .ok "" →
      optProp (prop product "photo") "small" = some (.str s) →
      jsTrim s ≠ "" →
      isValidImageUrl pf (jsTrim s) = true →
      titleOf product = .ok title →
      priceOf pf product = .ok price →
      toText (orElse (prop product "id") (.str "unknown")) = .ok idText →
      createProductCard pf product =
        .card (some (jsTrim s)) title price (orElse (prop product "id") (.str "unknown"))) := by
  constructor
  · intro url hurl hvalid
    cases himg : (createProductCard pf product).image with
    | none => rfl
    | some u =>
      obtain ⟨hu, _, hv⟩ := createProductCard_image pf product u himg
      rw [hurl] at hu
      rw [← Except.ok.inj hu, hvalid] at hv
      exact absurd hv (by decide)
  · intro s title price idText hrec hmedium hlarge hsmall hs hvalid htitle hprice hid
    have hurl : imageUrlOf product = .ok (jsTrim s) := by
      cases hphoto : prop product "photo" with
      | none => simp [hphoto, optProp] at hsmall
      | some photo =>
        rw [hphoto] at hmedium hlarge hsmall
        cases photo with
        | obj ps =>
          simp only [optProp, prop] at hmedium hlarge hsmall
          simp only [imageUrlOf, imageCandidates, List.map_cons, hphoto, readMember_obj,
            Candidate.trimmed_ofData, hmedium, hlarge, hsmall, trimOrEmpty_str, orChain, ne_eq,
            not_true_eq_false, if_false, hs, not_false_eq_true, if_true]
        | null => simp [optProp, prop] at hsmall
        | bool b => simp [optProp, prop] at hsmall
        | num n => simp [optProp, prop] at hsmall
        | str t => simp [optProp, prop] at hsmall
        | arr items => simp [optProp, prop] at hsmall
    have hguard : (!truthy product || !typeofObject product) = false := by
      simpa [validProduct] using hrec
    simp [createProductCard, hguard, hurl, htitle, hprice, hid, bind, Except.bind, pure,
      Except.pure, imageHtml, hs, hvalid]

theorem image_resolution_first_nonempty_witness :
    createProductCard samplePlatform productWithSmallOnly =
      .card (some "http://x/s.jpg") "Pen" "قیمت موجود نیست" (.num 9) :=
  (image_resolution_first_nonempty samplePlatform productWithSmallOnly).2
    " http://x/s.jpg " "Pen" "قیمت موجود نیست" "9" rfl rfl rfl rfl (by decide) (by decide)
    rfl rfl rfl

/-! ## Shelf cards -/

theorem toTextOpt_scalar (x : Option JsVal) (h : isScalarOrAbsent x = true) :
    ∃ t, toTextOpt x = .ok t := by
  cases x with
  | none => exact ⟨_, rfl⟩
  | some v =>
    cases v with
    | null => exact ⟨_, rfl⟩
    | bool b => cases b <;> exact ⟨_, rfl⟩
    | num n => exact ⟨_, rfl⟩
    | str s => exact ⟨_, rfl⟩
    | arr items => simp [isScalarOrAbsent] at h
    | obj ps => simp [isScalarOrAbsent] at h

theorem orOpt_scalar (a b : Option JsVal) (ha : isScalarOrAbsent a = true)
    (hb : isScalarOrAbsent b = true) : isScalarOrAbsent (orOpt a b) = true := by
  cases a with
  | none => exact hb
  | some v =>
    simp only [orOpt]
    split
    · exact ha
    · exact hb

theorem orElse_scalar (a : Option JsVal) (t : String) (ha : isScalarOrAbsent a = true) :
    isScalarOrAbsent (some (orElse a (.str t))) = true := by
  cases a with
  | none => rfl
  | some v =>
    simp only [orElse]
    split
    · exact ha
    · rfl

theorem isRecord_checks (p : JsVal) (h : isRecord p = true) :
    objectKeys p = .ok () ∧ inOperator p = .ok () := by
  cases p <;> simp [isRecord] at h <;> exact ⟨rfl, rfl⟩

theorem createShelfCard_ok (pf : Platform) (shelf : JsVal) (products : List JsVal)
    (hshelf : isShelfRecord shelf = true) (hproducts : ∀ p ∈ products, isRecord p = true) :
    ∃ title shelfId,
      toTextOpt (prop shelf "id") = .ok shelfId ∧
      createShelfCard pf shelf products = .ok
        { title := title
          shelfId := shelfId
          productCount := products.length
          products := (products.take 6).map (createProductCard pf)
          more := if products.length > 6 then some (products.length - 6) else none } := by
  cases shelf with
  | obj ps =>
    simp only [isShelfRecord, Bool.and_eq_true] at hshelf
    obtain ⟨⟨htitle, hname⟩, hid⟩ := hshelf
    obtain ⟨t1, ht1⟩ := toTextOpt_scalar _ (orOpt_scalar _ _ htitle hname)
    obtain ⟨t2, ht2⟩ := toTextOpt_scalar _ hid
    obtain ⟨t3, ht3⟩ := toTextOpt_scalar _
      (orElse_scalar _ "قفسه بدون نام" (orOpt_scalar _ _ htitle hname))
    refine ⟨t3, t2, ht2, ?_⟩
    simp only [toTextOpt] at ht3
    cases products with
    | nil =>
      simp [createShelfCard, getProp, prop, ht1, ht2, ht3, bind, Except.bind, pure, Except.pure]
    | cons p rest =>
      obtain ⟨hk, hi⟩ := isRecord_checks p (hproducts p (List.mem_cons_self _ _))
      simp [createShelfCard, getProp, prop, ht1, ht2, ht3, hk, hi, bind, Except.bind, pure,
        Except.pure]
  | null => simp [isShelfRecord] at hshelf
  | bool b => simp [isShelfRecord] at hshelf
  | num n => simp [isShelfRecord] at hshelf
  | str s => simp [isShelfRecord] at hshelf
  | arr items => simp [isShelfRecord] at hshelf

/-- C7: for a shelf record and a list of `n` product records, `createShelfCard`
returns a card whose displayed products are the cards of the first `min 6 n`
products in source order, whose overflow count is `max 0 (n - 6)`, with an
overflow line exactly when `n > 6`, and displayed count plus overflow count
is `n`. -/
theorem createShelfCard_truncates (pf : Platform) (shelf : JsVal) (products : List JsVal)
    (hshelf : isShelfRecord shelf = true) (hproducts : ∀ p ∈ products, isRecord p = true) :
    ∃ card, createShelfCard pf shelf products = .ok card ∧
      card.products = (products.take (min 6 products.length)).map (createProductCard pf) ∧
      card.products.length = min 6 products.length ∧
      (card.overflowCount : Int) = max 0 ((products.length : Int) - 6) ∧
      (card.more.isSome = true ↔ products.length > 6) ∧
      card.products.length + card.overflowCount = products.length := by
  obtain ⟨title, shelfId, _, hcard⟩ := createShelfCard_ok pf shelf products hshelf hproducts
  refine ⟨_, hcard, ?_, ?_, ?_, ?_, ?_⟩
  · simp only
    congr 1
    rw [List.take_eq_take]
    omega
  · simp only [List.length_map, List.length_take]
  · simp only [ShelfCard.overflowCount]
    split <;> simp <;> omega
  · simp only
    split <;> simp <;> omega
  · simp only [List.length_map, List.length_take, ShelfCard.overflowCount]
    split <;> simp <;> omega

theorem createShelfCard_truncates_witness :
    ∃ card, createShelfCard samplePlatform shelfA sevenProducts = .ok card ∧
      card.products.length = 6 ∧ card.overflowCount = 1 ∧ card.more = some 1 := by
  obtain ⟨card, hcard, _, hlen, hover, _, _⟩ :=
    createShelfCard_truncates samplePlatform shelfA sevenProducts (by decide) (by decide)
  refine ⟨card, hcard, hlen, ?_, ?_⟩
  · have h7 : sevenProducts.length = 7 := rfl
    rw [h7] at hover
    omega
  · have h := hcard
    rw [show createShelfCard samplePlatform shelfA sevenProducts = .ok
      (shelfCardOf samplePlatform shelfA sevenProducts) from rfl] at h
    rw [← Except.ok.inj h]
    rfl

/-! ## The shelf loop -/

theorem productsOf_records (outcome : FetchOutcome) : ∀ p ∈ productsOf outcome, isRecord p = true := by
  intro p hp
  cases outcome with
  | error e => simp [productsOf] at hp
  | ok response =>
    simp only [productsOf] at hp
    cases hok : response.ok with
    | false => simp [hok] at hp
    | true =>
      cases hj : response.json with
      | error e => simp [hok, hj] at hp
      | ok v =>
        simp only [hok, hj, if_true] at hp
        rw [processProductsData_spec] at hp
        cases v with
        | arr items =>
          simp only [referenceNormalise] at hp
          exact (List.mem_filter.mp hp).2
        | obj ps =>
          simp only [referenceNormalise] at hp
          split at hp
          · exact (List.mem_filter.mp hp).2
          · simp at hp
        | null => simp [referenceNormalise] at hp
        | bool b => simp [referenceNormalise] at hp
        | num n => simp [referenceNormalise] at hp
        | str s => simp [referenceNormalise] at hp

theorem shelfCardOf_ok (pf : Platform) (shelf : JsVal) (products : List JsVal)
    (hshelf : isShelfRecord shelf = true) (hproducts : ∀ p ∈ products, isRecord p = true) :
    createShelfCard pf shelf products = .ok (shelfCardOf pf shelf products) := by
  obtain ⟨title, shelfId, _, hcard⟩ := createShelfCard_ok pf shelf products hshelf hproducts
  simp only [shelfCardOf, hcard]

theorem shelfIdText_ok (shelf : JsVal) (hshelf : isShelfRecord shelf = true) :
    toTextOpt (prop shelf "id") = .ok (shelfIdText shelf) := by
  obtain ⟨title, shelfId, hid, _⟩ := createShelfCard_ok samplePlatform shelf [] hshelf
    (fun _ h => absurd h (List.not_mem_nil _))
  simp only [shelfIdText, hid]

theorem getProp_record (shelf : JsVal) (k : String) (hshelf : isShelfRecord shelf = true) :
    getProp shelf k = .ok (prop shelf k) := by
  cases shelf with
  | obj ps => rfl
  | _ => simp [isShelfRecord] at hshelf

theorem displayLoop_run (env : Env) (shelves : List JsVal) :
    ∀ (shelvesHtml : List ShelfCard) (app : App),
      (∀ s ∈ shelves, isShelfRecord s = true) →
      displayLoop shelves shelvesHtml env app =
        (.ok (shelvesHtml ++ expectedCards env.platform env.respond app.requests.length shelves),
         { app with requests := app.requests ++ shelves.map fun s => .products (shelfIdText s) }) := by
  induction shelves with
  | nil =>
    intro shelvesHtml app _
    simp [displayLoop, expectedCards]
  | cons shelf rest ih =>
    intro shelvesHtml app hwf
    have hshelf := hwf shelf (List.mem_cons_self _ _)
    have hrest : ∀ s ∈ rest, isShelfRecord s = true :=
      fun s hs => hwf s (List.mem_cons_of_mem _ hs)
    unfold displayLoop
    rw [Eff.run_bind_lift, getProp_record shelf "id" hshelf]
    simp only
    rw [Eff.run_bind, loadShelfProducts_run, shelfIdText_ok shelf hshelf]
    simp only
    rw [Eff.run_bind]
    simp only [Eff.surroundings]
    rw [Eff.run_bind_lift, shelfCardOf_ok env.platform shelf _ hshelf (productsOf_records _)]
    simp only
    rw [ih _ _ hrest]
    simp [expectedCards, List.append_assoc]

theorem expectedCards_length (pf : Platform) (respond : Nat → Request → FetchOutcome)
    (shelves : List JsVal) :
    ∀ n, (expectedCards pf respond n shelves).length = shelves.length := by
  induction shelves with
  | nil => intro n; rfl
  | cons shelf rest ih => intro n; simp [expectedCards, ih]

theorem expectedCards_getElem (pf : Platform) (respond : Nat → Request → FetchOutcome)
    (shelves : List JsVal) :
    ∀ (n i : Nat), (expectedCards pf respond n shelves)[i]? =
      shelves[i]?.map fun s =>
        shelfCardOf pf s (productsOf (respond (n + i) (.products (shelfIdText s)))) := by
  induction shelves with
  | nil => intro n i; rfl
  | cons shelf rest ih =>
    intro n i
    cases i with
    | zero => simp [expectedCards]
    | succ j =>
      simp only [expectedCards, List.getElem?_cons_succ, ih]
      have : n + 1 + j = n + (j + 1) := by omega
      rw [this]

theorem displayShelves_run (env : Env) (app : App) (shelves : List JsVal)
    (hne : shelves ≠ []) (hwf : ∀ s ∈ shelves, isShelfRecord s = true)
    (happ : app.shelves = .arr shelves) :
    displayShelves env app =
      (.ok (),
       { app with
          requests := app.requests ++ shelves.map fun s => .products (shelfIdText s)
          container := .cards (expectedCards env.platform env.respond app.requests.length shelves) }) := by
  unfold displayShelves
  rw [Eff.run_bind]
  simp only [Eff.state, happ, truthy, lengthIsZero, Bool.not_true, Bool.false_or]
  have hempty : shelves.isEmpty = false := by
    cases shelves with
    | nil => exact absurd rfl hne
    | cons _ _ => rfl
  simp only [hempty, Bool.false_eq_true, if_false]
  rw [Eff.run_bind_lift]
  simp only [iterate]
  rw [Eff.run_bind, displayLoop_run env shelves [] app hwf]
  simp [Eff.update, happ]

/-- C6: for a non-empty list of shelf records and any outcomes of the
per-shelf requests, `displayShelves` writes exactly one card per shelf, in the
order of the list, the `i`-th card being `createShelfCard` of the `i`-th shelf
and of the products its own request leads to; a failed request gives that
shelf the card with zero products, and changing the outcome of the request of
one shelf leaves the cards of all other shelves as they were. -/
theorem displayShelves_cards (env : Env) (app : App) (shelves : List JsVal)
    (hne : shelves ≠ []) (hwf : ∀ s ∈ shelves, isShelfRecord s = true)
    (happ : app.shelves = .arr shelves) :
    ∃ cards,
      (displayShelves env app).1 = .ok () ∧
      (displayShelves env app).2.container = .cards cards ∧
      cards.length = shelves.length ∧
      (∀ i (hi : i < shelves.length), ∃ card, cards[i]? = some card ∧
        createShelfCard env.platform shelves[i]
          (productsOf (env.respond (app.requests.length + i)
            (.products (shelfIdText shelves[i])))) = .ok card ∧
        (isFailure (env.respond (app.requests.length + i)
            (.products (shelfIdText shelves[i]))) = true →
          createShelfCard env.platform shelves[i] [] = .ok card)) ∧
      (∀ (env2 : Env) (j : Nat), env2.platform = env.platform →
        (∀ i, i ≠ j → ∀ req,
          env2.respond (app.requests.length + i) req =
            env.respond (app.requests.length + i) req) →
        ∃ cards2, (displayShelves env2 app).2.container = .cards cards2 ∧
          cards2.length = cards.length ∧ ∀ i, i ≠ j → cards2[i]? = cards[i]?) := by
  refine ⟨expectedCards env.platform env.respond app.requests.length shelves, ?_, ?_, ?_, ?_, ?_⟩
  · rw [displayShelves_run env app shelves hne hwf happ]
  · rw [displayShelves_run env app shelves hne hwf happ]
  · exact expectedCards_length _ _ _ _
  · intro i hi
    have hshelf := hwf shelves[i] (List.getElem_mem hi)
    refine ⟨_, ?_, shelfCardOf_ok env.platform shelves[i] _ hshelf (productsOf_records _), ?_⟩
    · rw [expectedCards_getElem, List.getElem?_eq_getElem hi]
      rfl
    · intro hfail
      rw [productsOf_failure _ hfail]
      exact shelfCardOf_ok env.platform shelves[i] [] hshelf
        (fun _ h => absurd h (List.not_mem_nil _))
  · intro env2 j hpf hsame
    refine ⟨expectedCards env2.platform env2.respond app.requests.length shelves, ?_, ?_, ?_⟩
    · rw [displayShelves_run env2 app shelves hne hwf happ]
    · rw [expectedCards_length, expectedCards_length]
    · intro i hij
      rw [expectedCards_getElem, expectedCards_getElem, hpf]
      cases shelves[i]? with
      | none => rfl
      | some s => simp only [Option.map_some', hsame i hij]

theorem displayShelves_cards_witness :
    (displayShelves (sampleEnv penNetwork)
        { App.initial with shelves := .arr [shelfA, shelfB] }).2.container =
      .cards
        [ { title := "A", shelfId := "1", productCount := 1,
            products := [.card (some "http://x/m.jpg") "Pen" "قیمت موجود نیست" (.num 9)],
            more := none },
          { title := "B", shelfId := "2", productCount := 0, products := [], more := none } ] ∧
    ∃ cards,
      (displayShelves (sampleEnv penNetwork)
        { App.initial with shelves := .arr [shelfA, shelfB] }).2.container = .cards cards ∧
      cards.length = 2 := by
  refine ⟨rfl, ?_⟩
  obtain ⟨cards, _, hcards, hlen, _⟩ :=
    displayShelves_cards (sampleEnv penNetwork)
      { App.initial with shelves := .arr [shelfA, shelfB] } [shelfA, shelfB]
      (by simp) (by decide) rfl
  exact ⟨cards, hcards, hlen⟩

/-! ## The shelf list -/

/-- C8: when the shelf-list request throws or answers with a non-success
status, `loadShelves` ends in the failure state of the container, issues no
request besides the shelf-list request, and leaves the cached shelves as they
were; when it succeeds with an empty list (bare or under `data`), the container
gets the empty-catalog notice, which is another content than the failure
state, and again no products request is issued. -/
theorem loadShelves_failure_and_empty (env : Env) (app : App) :
    (((∃ e, env.respond app.requests.length .shelves = .error e) ∨
        (∃ r, env.respond app.requests.length .shelves = .ok r ∧ r.ok = false)) →
      (loadShelves env app).1 = .ok () ∧
      (loadShelves env app).2.container = .loadFailed ∧
      (loadShelves env app).2.requests = app.requests ++ [.shelves] ∧
      (loadShelves env app).2.shelves = app.shelves) ∧
    (∀ r v, env.respond app.requests.length .shelves = .ok r → r.ok = true →
      r.json = .ok v →
      (v = .arr [] ∨ ∃ ps, v = .obj ps ∧ lookupProp ps "data" = some (.arr [])) →
      (loadShelves env app).1 = .ok () ∧
      (loadShelves env app).2.container = .noShelves ∧
      (loadShelves env app).2.requests = app.requests ++ [.shelves] ∧
      (loadShelves env app).2.shelves = .arr []) ∧
    Container.noShelves ≠ Container.loadFailed := by
  refine ⟨?_, ?_, by intro h; cases h⟩
  · intro hfail
    unfold loadShelves Eff.tryCatch
    rw [Eff.run_bind_fetch]
    rcases hfail with ⟨e, he⟩ | ⟨r, hr, hok⟩
    · simp [he, Eff.update]
    · simp [hr, hok, Eff.raise, Eff.update]
  · intro r v hr hok hjson hv
    unfold loadShelves Eff.tryCatch
    rw [Eff.run_bind_fetch]
    simp only [hr, hok, Bool.not_true, Bool.false_eq_true, if_false]
    rw [Eff.run_bind_lift]
    simp only [hjson]
    rw [Eff.run_bind_lift]
    rcases hv with hv | ⟨ps, hv, hdata⟩
    · subst hv
      simp [getProp, prop, orElse, truthy, Eff.run_bind, Eff.update, Eff.detach, displayShelves,
        Eff.state, lengthIsZero]
    · subst hv
      simp [getProp, prop, hdata, orElse, truthy, Eff.run_bind, Eff.update, Eff.detach,
        displayShelves, Eff.state, lengthIsZero]

theorem loadShelves_failure_and_empty_witness :
    (loadShelves (sampleEnv fun _ _ => .ok ⟨503, .ok (.arr [shelfA])⟩) App.initial).2.container
        = .loadFailed ∧
    (loadShelves (sampleEnv fun _ _ => .ok ⟨503, .ok (.arr [shelfA])⟩) App.initial).2.requests
        = [.shelves] ∧
    (loadShelves (sampleEnv fun _ _ => .ok ⟨200, .ok (.arr [])⟩) App.initial).2.container
        = .noShelves ∧
    (loadShelves (sampleEnv fun _ _ => .ok ⟨200, .ok (.arr [])⟩) App.initial).2.requests
        = [.shelves] := by
  have hfail := (loadShelves_failure_and_empty
    (sampleEnv fun _ _ => .ok ⟨503, .ok (.arr [shelfA])⟩) App.initial).1
    (Or.inr ⟨⟨503, .ok (.arr [shelfA])⟩, rfl, rfl⟩)
  have hempty := (loadShelves_failure_and_empty
    (sampleEnv fun _ _ => .ok ⟨200, .ok (.arr [])⟩) App.initial).2.1
    ⟨200, .ok (.arr [])⟩ (.arr []) rfl rfl rfl (Or.inl rfl)
  exact ⟨hfail.2.1, hfail.2.2.1, hempty.2.1, hempty.2.2.1⟩

/-! ## Catalog loading leaves the session alone -/

theorem Eff.quiet_pure {α : Type} (a : α) : Eff.Quiet (pure a : Eff α) :=
  fun _ _ => rfl

theorem Eff.quiet_raise {α : Type} (e : JsError) : Eff.Quiet (Eff.raise e : Eff α) :=
  fun _ _ => rfl

theorem Eff.quiet_lift {α : Type} (x : Except JsError α) : Eff.Quiet (Eff.lift x) :=
  fun _ _ => rfl

theorem Eff.quiet_fetch (req : Request) : Eff.Quiet (Eff.fetch req) :=
  fun _ _ => rfl

theorem Eff.quiet_state : Eff.Quiet Eff.state :=
  fun _ _ => rfl

theorem Eff.quiet_surroundings : Eff.Quiet Eff.surroundings :=
  fun _ _ => rfl

theorem Eff.quiet_update (f : App → App) (hf : ∀ s, (f s).session = s.session) :
    Eff.Quiet (Eff.update f) :=
  fun _ s => hf s

theorem Eff.quiet_bind {α β : Type} (m : Eff α) (f : α → Eff β) (hm : Eff.Quiet m)
    (hf : ∀ a, Eff.Quiet (f a)) : Eff.Quiet (m >>= f) := by
  intro env s
  rw [Eff.run_bind]
  have h := hm env s
  rcases hrun : m env s with ⟨r, s'⟩
  rw [hrun] at h
  cases r with
  | error e => exact h
  | ok a => exact (hf a env s').trans h

theorem Eff.quiet_tryCatch {α : Type} (body : Eff α) (handler : JsError → Eff α)
    (hb : Eff.Quiet body) (hh : ∀ e, Eff.Quiet (handler e)) :
    Eff.Quiet (Eff.tryCatch body handler) := by
  intro env s
  unfold Eff.tryCatch
  have h := hb env s
  rcases hrun : body env s with ⟨r, s'⟩
  rw [hrun] at h
  cases r with
  | error e => exact (hh e env s').trans h
  | ok a => exact h

theorem Eff.quiet_detach (m : Eff Unit) (hm : Eff.Quiet m) : Eff.Quiet (Eff.detach m) := by
  intro env s
  unfold Eff.detach
  have h := hm env s
  rcases hrun : m env s with ⟨r, s'⟩
  rw [hrun] at h
  cases r with
  | error e => exact h
  | ok a => exact h

theorem loadShelfProducts_quiet (shelfId : Option JsVal) : Eff.Quiet (loadShelfProducts shelfId) := by
  intro env s
  rw [loadShelfProducts_run]
  cases toTextOpt shelfId <;> rfl

theorem displayLoop_quiet (shelves : List JsVal) :
    ∀ shelvesHtml, Eff.Quiet (displayLoop shelves shelvesHtml) := by
  induction shelves with
  | nil => intro shelvesHtml; exact Eff.quiet_pure _
  | cons shelf rest ih =>
    intro shelvesHtml
    unfold displayLoop
    refine Eff.quiet_bind _ _ (Eff.quiet_lift _) fun shelfId => ?_
    refine Eff.quiet_bind _ _ (loadShelfProducts_quiet _) fun products => ?_
    refine Eff.quiet_bind _ _ Eff.quiet_surroundings fun env => ?_
    refine Eff.quiet_bind _ _ (Eff.quiet_lift _) fun card => ?_
    exact ih _

theorem displayShelves_quiet : Eff.Quiet displayShelves := by
  unfold displayShelves
  refine Eff.quiet_bind _ _ Eff.quiet_state fun app => ?_
  split
  · exact Eff.quiet_update _ fun _ => rfl
  · refine Eff.quiet_bind _ _ (Eff.quiet_lift _) fun shelves => ?_
    refine Eff.quiet_bind _ _ (displayLoop_quiet _ _) fun shelvesHtml => ?_
    exact Eff.quiet_update _ fun _ => rfl

theorem loadShelves_quiet : Eff.Quiet loadShelves := by
  unfold loadShelves
  refine Eff.quiet_tryCatch _ _ ?_ fun _ => Eff.quiet_update _ fun _ => rfl
  refine Eff.quiet_bind _ _ (Eff.quiet_fetch _) fun response => ?_
  split
  · exact Eff.quiet_raise _
  · refine Eff.quiet_bind _ _ (Eff.quiet_lift _) fun shelvesData => ?_
    refine Eff.quiet_bind _ _ (Eff.quiet_lift _) fun data => ?_
    refine Eff.quiet_bind _ _ (Eff.quiet_update _ fun _ => rfl) fun _ => ?_
    exact Eff.quiet_detach _ displayShelves_quiet

theorem displayUserInfo_quiet : Eff.Quiet displayUserInfo := by
  unfold displayUserInfo
  refine Eff.quiet_bind _ _ Eff.quiet_state fun app => ?_
  split
  · refine Eff.quiet_bind _ _ (Eff.quiet_lift _) fun name => ?_
    refine Eff.quiet_bind _ _ (Eff.quiet_lift _) fun id => ?_
    exact Eff.quiet_update _ fun _ => rfl
  · exact Eff.quiet_pure _

theorem loadUserInfo_quiet : Eff.Quiet loadUserInfo := by
  unfold loadUserInfo
  refine Eff.quiet_tryCatch _ _ ?_ fun _ => Eff.quiet_update _ fun _ => rfl
  refine Eff.quiet_bind _ _ (Eff.quiet_fetch _) fun response => ?_
  split
  · exact Eff.quiet_raise _
  · refine Eff.quiet_bind _ _ (Eff.quiet_lift _) fun userInfo => ?_
    refine Eff.quiet_bind _ _ (Eff.quiet_update _ fun _ => rfl) fun _ => ?_
    exact displayUserInfo_quiet

theorem loadDashboardData_quiet : Eff.Quiet loadDashboardData := by
  unfold loadDashboardData
  exact Eff.quiet_bind _ _ loadUserInfo_quiet fun _ => loadShelves_quiet

theorem Eff.tryCatch_update_ok (body : Eff Unit) (f : App → App) (env : Env) (s : App) :
    (Eff.tryCatch body (fun _ => Eff.update f) env s).1 = .ok () := by
  unfold Eff.tryCatch
  rcases body env s with ⟨r, s'⟩
  cases r <;> rfl

theorem loadDashboardData_ok (env : Env) (s : App) : (loadDashboardData env s).1 = .ok () := by
  unfold loadDashboardData
  rw [Eff.run_bind]
  have h1 : (loadUserInfo env s).1 = .ok () := Eff.tryCatch_update_ok _ _ env s
  rcases hrun : loadUserInfo env s with ⟨r, s'⟩
  rw [hrun] at h1
  simp only at h1
  subst h1
  exact Eff.tryCatch_update_ok _ _ env s'

@[simp] theorem Eff.run_bind_update {β : Type} (f : App → App) (g : Unit → Eff β)
    (env : Env) (s : App) : (Eff.update f >>= g) env s = g () env (f s) := rfl

@[simp] theorem Eff.run_bind_state {β : Type} (g : App → Eff β) (env : Env) (s : App) :
    (Eff.state >>= g) env s = g s env s := rfl

@[simp] theorem Eff.run_bind_surroundings {β : Type} (g : Env → Eff β) (env : Env) (s : App) :
    (Eff.surroundings >>= g) env s = g env env s := rfl

theorem refreshData_run (env : Env) (s : App) :
    refreshData env s =
      if env.pathname == "/dashboard" then
        (.ok (),
         { (loadDashboardData env { s with loading := true }).2 with
           loading := false
           alerts := (loadDashboardData env { s with loading := true }).2.alerts ++
             [⟨"Data refreshed successfully", "success"⟩] })
      else (.ok (), s) := by
  unfold refreshData
  rw [Eff.run_bind_surroundings]
  split
  · simp only [showLoading, showAlert, Eff.run_bind_update]
    rw [Eff.run_bind]
    have hok := loadDashboardData_ok env { s with loading := true }
    rcases hrun : loadDashboardData env { s with loading := true } with ⟨r, s'⟩
    rw [hrun] at hok
    simp only at hok
    subst hok
    rfl
  · rfl

theorem refreshData_ok (env : Env) (s : App) : (refreshData env s).1 = .ok () := by
  rw [refreshData_run]
  split <;> rfl

theorem refreshData_alerts (env : Env) (s : App) :
    (refreshData env s).2.alerts = s.alerts ∨
      (refreshData env s).2.alerts = s.alerts ++ [⟨"Data refreshed successfully", "success"⟩] := by
  rw [refreshData_run]
  split
  · right
    have h := loadDashboardData_quiet env { s with loading := true }
    simp only [App.session, Prod.mk.injEq] at h
    simp only [h.2.2.1]
  · left; rfl

theorem refreshData_session (env : Env) (s : App) :
    (refreshData env s).2.currentShelfId = s.currentShelfId ∧
    (refreshData env s).2.updateModalShown = s.updateModalShown ∧
    (refreshData env s).2.review = s.review := by
  rw [refreshData_run]
  split
  · have h := loadDashboardData_quiet env { s with loading := true }
    simp only [App.session, Prod.mk.injEq] at h
    exact ⟨h.1, h.2.2.2.1, h.2.2.2.2⟩
  · exact ⟨rfl, rfl, rfl⟩

/-! ## The update workflow -/

theorem handleUpdate_accepted (sub : Submission) (env : Env) (app : App)
    (hsel : truthy app.currentShelfId = true) (hacc : sub.accepted = true) :
    handleUpdate sub env app =
      submitUpdate sub.request sub.updateType sub.fallback sub.label env app := by
  cases sub with
  | description text =>
    simp only [Submission.accepted, bne_iff_ne, ne_eq] at hacc
    simp only [handleUpdate, handleDescriptionUpdate, Eff.run_bind_state, hsel, Bool.not_true,
      Bool.false_eq_true, if_false, beq_iff_eq, hacc]
    rfl
  | image imageFile =>
    cases imageFile with
    | none => simp [Submission.accepted] at hacc
    | some size =>
      simp only [Submission.accepted, bne_iff_ne, ne_eq] at hacc
      simp only [handleUpdate, handleImageUpdate, Eff.run_bind_state, hsel, Bool.not_true,
        Bool.false_eq_true, if_false, beq_iff_eq, hacc]
      rfl

theorem submitUpdate_rejected (request : String → Request) (updateType : UpdateType)
    (fallback label : String) (env : Env) (app : App) (idText : String) (e : JsError)
    (hid : toText app.currentShelfId = .ok idText)
    (hr : env.respond app.requests.length (request idText) = .error e) :
    submitUpdate request updateType fallback label env app =
      (.ok (), failedState app (request idText) (label ++ e.message)) := by
  simp [submitUpdate, showLoading, showAlert, Eff.tryFinally, Eff.tryCatch, Eff.update, hid, hr,
    failedState]

theorem submitUpdate_unparsed (request : String → Request) (updateType : UpdateType)
    (fallback label : String) (env : Env) (app : App) (idText : String) (r : Response)
    (e : JsError)
    (hid : toText app.currentShelfId = .ok idText)
    (hr : env.respond app.requests.length (request idText) = .ok r)
    (hjson : r.json = .error e) :
    submitUpdate request updateType fallback label env app =
      (.ok (), failedState app (request idText) (label ++ e.message)) := by
  simp [submitUpdate, showLoading, showAlert, Eff.tryFinally, Eff.tryCatch, Eff.update, hid, hr,
    hjson, failedState]

theorem getProp_of_ne_null (v : JsVal) (k : String) (h : v ≠ .null) :
    getProp v k = .ok (prop v k) := by
  cases v with
  | null => exact absurd rfl h
  | _ => rfl

@[simp] theorem Eff.run_bind_pure {α β : Type} (a : α) (g : α → Eff β) (env : Env) (s : App) :
    ((pure a : Eff α) >>= g) env s = g a env s := rfl

theorem submitUpdate_refused (request : String → Request) (updateType : UpdateType)
    (fallback label : String) (env : Env) (app : App) (idText : String) (r : Response)
    (result : JsVal)
    (hid : toText app.currentShelfId = .ok idText)
    (hr : env.respond app.requests.length (request idText) = .ok r)
    (hjson : r.json = .ok result) (hresult : result ≠ .null)
    (hfail : (r.ok && truthyOpt (prop result "success")) = false) :
    submitUpdate request updateType fallback label env app =
      (.ok (), failedState app (request idText)
        (label ++ surfacedText (toText (orElse (prop result "detail") (.str fallback))))) := by
  have hsuccess := getProp_of_ne_null result "success" hresult
  have hdetail := getProp_of_ne_null result "detail" hresult
  cases hok : r.ok with
  | false =>
    cases ht : toText (orElse (prop result "detail") (.str fallback)) <;>
      simp [submitUpdate, showLoading, showAlert, Eff.tryFinally, Eff.tryCatch, Eff.update, hid,
        hr, hjson, hok, hdetail, ht, truthyOpt, Eff.raise, newError, failedState, surfacedText]
  | true =>
    rw [hok, Bool.true_and] at hfail
    cases ht : toText (orElse (prop result "detail") (.str fallback)) <;>
      simp [submitUpdate, showLoading, showAlert, Eff.tryFinally, Eff.tryCatch, Eff.update, hid,
        hr, hjson, hok, hsuccess, hdetail, hfail, ht, Eff.raise, newError, failedState,
        surfacedText]

theorem submitUpdate_null (request : String → Request) (updateType : UpdateType)
    (fallback label : String) (env : Env) (app : App) (idText : String) (r : Response)
    (hid : toText app.currentShelfId = .ok idText)
    (hr : env.respond app.requests.length (request idText) = .ok r)
    (hjson : r.json = .ok .null) :
    ∃ message, submitUpdate request updateType fallback label env app =
      (.ok (), failedState app (request idText) (label ++ message)) := by
  cases hok : r.ok with
  | false =>
    exact ⟨(typeError ("Cannot read properties of null: " ++ "detail")).message, by
      simp [submitUpdate, showLoading, showAlert, Eff.tryFinally, Eff.tryCatch, Eff.update, hid,
        hr, hjson, hok, getProp, truthyOpt, failedState]⟩
  | true =>
    exact ⟨(typeError ("Cannot read properties of null: " ++ "success")).message, by
      simp [submitUpdate, showLoading, showAlert, Eff.tryFinally, Eff.tryCatch, Eff.update, hid,
        hr, hjson, hok, getProp, failedState]⟩

theorem toText_count (x : Option JsVal) (h : isScalarOrAbsent x = true) :
    ∃ t, toText (orElse x (.num 0)) = .ok t := by
  have hs : isScalarOrAbsent (some (orElse x (.num 0))) = true := by
    cases x with
    | none => rfl
    | some v =>
      simp only [orElse]
      split
      · exact h
      · rfl
  exact toTextOpt_scalar _ hs

theorem showUpdateResults_bind {β : Type} (result : JsVal) (updateType : UpdateType)
    (g : Unit → Eff β) (env : Env) (s : App) (hresult : result ≠ .null)
    (hupdated : isScalarOrAbsent (prop result "updated_count") = true)
    (hfailed : isScalarOrAbsent (prop result "failed_count") = true) :
    (showUpdateResults result updateType >>= g) env s =
      g () env
        { s with
          review := some ⟨orElse (prop result "updated_count") (.num 0),
            orElse (prop result "failed_count") (.num 0), updateType⟩ } := by
  have hu := getProp_of_ne_null result "updated_count" hresult
  have hf := getProp_of_ne_null result "failed_count" hresult
  obtain ⟨t1, ht1⟩ := toText_count _ hupdated
  obtain ⟨t2, ht2⟩ := toText_count _ hfailed
  rw [Eff.run_bind]
  simp [showUpdateResults, hu, hf, ht1, ht2, Eff.update]

theorem submitUpdate_success (request : String → Request) (updateType : UpdateType)
    (fallback label : String) (env : Env) (app : App) (idText : String) (r : Response)
    (result : JsVal)
    (hid : toText app.currentShelfId = .ok idText)
    (hr : env.respond app.requests.length (request idText) = .ok r)
    (hjson : r.json = .ok result) (hok : r.ok = true)
    (hflag : truthyOpt (prop result "success") = true)
    (hupdated : isScalarOrAbsent (prop result "updated_count") = true)
    (hfailed : isScalarOrAbsent (prop result "failed_count") = true) :
    submitUpdate request updateType fallback label env app =
      (.ok (), successState env app (request idText) result updateType) := by
  have hresult : result ≠ .null := by
    intro h
    subst h
    simp [prop, truthyOpt] at hflag
  have hsuccess := getProp_of_ne_null result "success" hresult
  simp only [submitUpdate, showLoading, Eff.tryFinally, Eff.tryCatch, Eff.update,
    Eff.run_bind_update, Eff.run_bind_state, Eff.run_bind_lift, Eff.run_bind_fetch, hid, hr,
    hjson, hok, hsuccess, hflag, Bool.and_self, if_true, hideModal,
    showUpdateResults_bind result updateType _ env _ hresult hupdated hfailed]
  have hrefresh := refreshData_ok env
    { app with
      loading := true
      requests := app.requests ++ [request idText]
      review := some ⟨orElse (prop result "updated_count") (.num 0),
        orElse (prop result "failed_count") (.num 0), updateType⟩
      updateModalShown := false }
  simp only [successState]
  rcases hrun : refreshData env
    { app with
      loading := true
      requests := app.requests ++ [request idText]
      review := some ⟨orElse (prop result "updated_count") (.num 0),
        orElse (prop result "failed_count") (.num 0), updateType⟩
      updateModalShown := false } with ⟨res, s'⟩
  rw [hrun] at hrefresh
  simp only at hrefresh
  subst hrefresh
  simp [hrun]

theorem successState_ne_failedState (env : Env) (app : App) (req : Request) (result : JsVal)
    (updateType : UpdateType) (text : String) :
    successState env app req result updateType ≠ failedState app req text := by
  intro h
  have halerts := congrArg App.alerts h
  simp only [successState, failedState] at halerts
  rcases refreshData_alerts env
    { app with
      loading := true
      requests := app.requests ++ [req]
      review := some ⟨orElse (prop result "updated_count") (.num 0),
        orElse (prop result "failed_count") (.num 0), updateType⟩
      updateModalShown := false } with h1 | h1
  · rw [h1] at halerts
    have hlen := congrArg List.length halerts
    simp at hlen
  · rw [h1] at halerts
    have hlast := List.append_cancel_left halerts
    simp at hlast

/-- C9, as the code behaves: an image update answered with status 200 and the
success flag `1`, a value other than `true`, takes the success path: the review
dialog gets the counts, the update dialog is closed, the catalog is reloaded,
and no error is surfaced. -/
theorem truthy_flag_takes_success_path :
    (handleUpdate (.image (some 10))
        (sampleEnv (updateNetwork (.ok ⟨200, .ok flagOneBody⟩))) dialogOpen).2.alerts
      = [⟨"Data refreshed successfully", "success"⟩] ∧
    (handleUpdate (.image (some 10))
        (sampleEnv (updateNetwork (.ok ⟨200, .ok flagOneBody⟩))) dialogOpen).2.updateModalShown
      = false ∧
    (handleUpdate (.image (some 10))
        (sampleEnv (updateNetwork (.ok ⟨200, .ok flagOneBody⟩))) dialogOpen).2.requests
      = [.updateImages "5" 10, .userMe, .shelves] ∧
    (handleUpdate (.image (some 10))
        (sampleEnv (updateNetwork (.ok ⟨200, .ok flagOneBody⟩))) dialogOpen).2.review.isSome
      = true := by
  refine ⟨by rfl, by rfl, by rfl, by rfl⟩

/-- C9, amended: for an accepted description or image submission whose
response carries scalar or absent counts, the handler ends in the success state
(results shown, dialog closed, `refreshData` run) if and only if the status is
a success and the parsed body has a truthy `success` flag; with any other
response (a non-success status, an unparsable body, a flag that is absent,
`false`, `0`, `""` or `null`) it ends in the failure state. -/
theorem update_success_iff_truthy_flag (env : Env) (app : App) (sub : Submission)
    (idText : String) (r : Response)
    (hsel : truthy app.currentShelfId = true) (hacc : sub.accepted = true)
    (hid : toText app.currentShelfId = .ok idText)
    (hr : env.respond app.requests.length (sub.request idText) = .ok r)
    (hcounts : ∀ result, r.json = .ok result →
      isScalarOrAbsent (prop result "updated_count") = true ∧
      isScalarOrAbsent (prop result "failed_count") = true) :
    ((∃ result, r.json = .ok result ∧
        handleUpdate sub env app =
          (.ok (), successState env app (sub.request idText) result sub.updateType)) ↔
      reportsSuccess r = true) ∧
    (reportsSuccess r = false →
      ∃ message, handleUpdate sub env app =
        (.ok (), failedState app (sub.request idText) (sub.label ++ message))) := by
  rw [handleUpdate_accepted sub env app hsel hacc]
  have hfailure : reportsSuccess r = false →
      ∃ message, submitUpdate sub.request sub.updateType sub.fallback sub.label env app =
        (.ok (), failedState app (sub.request idText) (sub.label ++ message)) := by
    intro hno
    cases hjson : r.json with
    | error e => exact ⟨_, submitUpdate_unparsed _ _ _ _ env app idText r e hid hr hjson⟩
    | ok result =>
      by_cases hnull : result = .null
      · subst hnull
        exact submitUpdate_null _ _ _ _ env app idText r hid hr hjson
      · have hfail : (r.ok && truthyOpt (prop result "success")) = false := by
          simpa [reportsSuccess, hjson] using hno
        exact ⟨_, submitUpdate_refused _ _ _ _ env app idText r result hid hr hjson hnull hfail⟩
  refine ⟨⟨?_, ?_⟩, hfailure⟩
  · rintro ⟨result, hjson, hfinal⟩
    by_contra hno
    obtain ⟨message, hfailed⟩ := hfailure (by simpa using hno)
    rw [hfinal] at hfailed
    exact successState_ne_failedState env app _ result _ _ (congrArg Prod.snd hfailed)
  · intro hyes
    cases hjson : r.json with
    | error e => simp [reportsSuccess, hjson] at hyes
    | ok result =>
      simp only [reportsSuccess, hjson, Bool.and_eq_true] at hyes
      exact ⟨result, rfl, submitUpdate_success _ _ _ _ env app idText r result hid hr hjson
        hyes.1 hyes.2 (hcounts result hjson).1 (hcounts result hjson).2⟩

theorem update_success_iff_truthy_flag_witness :
    reportsSuccess ⟨200, .ok flagOneBody⟩ = true ∧
    reportsSuccess ⟨200, .ok quotaBody⟩ = false ∧
    ∃ message, handleUpdate (.description "new text")
        (sampleEnv (updateNetwork (.ok ⟨200, .ok quotaBody⟩))) dialogOpen =
      (.ok (), failedState dialogOpen (.updateDescriptions "5" "new text")
        ("خطا در بروزرسانی توضیحات: " ++ message)) :=
  ⟨rfl, rfl,
    (update_success_iff_truthy_flag (sampleEnv (updateNetwork (.ok ⟨200, .ok quotaBody⟩)))
      dialogOpen (.description "new text") "5" ⟨200, .ok quotaBody⟩ rfl (by decide) rfl rfl
      (fun result h => by
        have : result = quotaBody := (Except.ok.inj h).symm
        subst this
        exact ⟨rfl, rfl⟩)).2 rfl⟩

/-- C10, as the code behaves: an image update whose fetch rejects with a
network error carries no server detail, and the message surfaced is the one of
the network error, not the generic fallback `Failed to update images`. -/
theorem network_error_surfaces_own_message :
    (handleUpdate (.image (some 10))
        (sampleEnv (updateNetwork (.error ⟨"TypeError", "Failed to fetch"⟩))) dialogOpen).2.alerts
      = [⟨"Error updating images: Failed to fetch", "danger"⟩] ∧
    (Submission.image (some 10)).fallback = "Failed to update images" ∧
    (handleUpdate (.image (some 10))
        (sampleEnv (updateNetwork (.error ⟨"TypeError", "Failed to fetch"⟩))) dialogOpen).2.alerts
      ≠ [⟨"Error updating images: Failed to update images", "danger"⟩] := by
  refine ⟨by rfl, by rfl, by decide⟩

/-- C10, amended: an accepted submission that fails ends in the failure state:
one `danger` alert, the overlay hidden, no request besides the update request
(so no shelf-list request) and the cached catalog unchanged. The message
surfaced after the label is the message of the thrown error for a rejected
fetch or an unparsable body; for a parsed body other than `null` with a
non-success status or a falsy flag it is the text of `detail` when that is
truthy (the detail itself when it is a string) and the generic fallback when
`detail` is absent or falsy. -/
theorem update_failure_surfaces_message (env : Env) (app : App) (sub : Submission)
    (idText : String)
    (hsel : truthy app.currentShelfId = true) (hacc : sub.accepted = true)
    (hid : toText app.currentShelfId = .ok idText) :
    (∀ e, env.respond app.requests.length (sub.request idText) = .error e →
      handleUpdate sub env app =
        (.ok (), failedState app (sub.request idText) (sub.label ++ e.message))) ∧
    (∀ r e, env.respond app.requests.length (sub.request idText) = .ok r →
      r.json = .error e →
      handleUpdate sub env app =
        (.ok (), failedState app (sub.request idText) (sub.label ++ e.message))) ∧
    (∀ r result, env.respond app.requests.length (sub.request idText) = .ok r →
      r.json = .ok result → result ≠ .null →
      (r.ok && truthyOpt (prop result "success")) = false →
      handleUpdate sub env app =
        (.ok (), failedState app (sub.request idText)
          (sub.label ++
            surfacedText (toText (orElse (prop result "detail") (.str sub.fallback))))) ∧
      (∀ d, prop result "detail" = some (.str d) → d ≠ "" →
        surfacedText (toText (orElse (prop result "detail") (.str sub.fallback))) = d) ∧
      (truthyOpt (prop result "detail") = false →
        surfacedText (toText (orElse (prop result "detail") (.str sub.fallback)))
          = sub.fallback)) ∧
    (∀ text,
      (failedState app (sub.request idText) text).requests
        = app.requests ++ [sub.request idText] ∧
      sub.request idText ≠ .shelves ∧
      (failedState app (sub.request idText) text).shelves = app.shelves ∧
      (failedState app (sub.request idText) text).container = app.container ∧
      (failedState app (sub.request idText) text).loading = false ∧
      (failedState app (sub.request idText) text).alerts = app.alerts ++ [⟨text, "danger"⟩]) := by
  rw [handleUpdate_accepted sub env app hsel hacc]
  refine ⟨?_, ?_, ?_, ?_⟩
  · intro e hr
    exact submitUpdate_rejected _ _ _ _ env app idText e hid hr
  · intro r e hr hjson
    exact submitUpdate_unparsed _ _ _ _ env app idText r e hid hr hjson
  · intro r result hr hjson hnull hfail
    refine ⟨submitUpdate_refused _ _ _ _ env app idText r result hid hr hjson hnull hfail, ?_, ?_⟩
    · intro d hd hne
      simp [hd, orElse, truthy, hne, toText, surfacedText]
    · intro hfalsy
      cases hd : prop result "detail" with
      | none => simp [orElse, toText, surfacedText]
      | some v =>
        rw [hd] at hfalsy
        simp only [truthyOpt] at hfalsy
        simp [orElse, hfalsy, toText, surfacedText]
  · intro text
    refine ⟨rfl, ?_, rfl, rfl, rfl, rfl⟩
    cases sub <;> simp [Submission.request]

theorem update_failure_surfaces_message_witness :
    handleUpdate (.image (some 10))
        (sampleEnv (updateNetwork (.ok ⟨200, .ok quotaBody⟩))) dialogOpen =
      (.ok (), failedState dialogOpen (.updateImages "5" 10)
        ("Error updating images: " ++ "quota exceeded")) ∧
    (failedState dialogOpen (.updateImages "5" 10)
        ("Error updating images: " ++ "quota exceeded")).requests = [.updateImages "5" 10] ∧
    (failedState dialogOpen (.updateImages "5" 10)
        ("Error updating images: " ++ "quota exceeded")).loading = false :=
  ⟨((update_failure_surfaces_message (sampleEnv (updateNetwork (.ok ⟨200, .ok quotaBody⟩)))
      dialogOpen (.image (some 10)) "5" rfl (by decide) rfl).2.2.1
      ⟨200, .ok quotaBody⟩ quotaBody rfl rfl (by intro h; cases h) rfl).1,
    rfl, rfl⟩

/-! ## The success rate -/

set_option exponentiation.threshold 1100

theorem roundHalfEven_spec (n d : Nat) (hd : 0 < d) :
    2 * (roundHalfEven n d * d) ≤ 2 * n + d ∧ 2 * n ≤ 2 * (roundHalfEven n d * d) + d := by
  have h := Nat.div_add_mod n d
  have hr := Nat.mod_lt n hd
  unfold roundHalfEven
  simp only
  have hq : (n / d + 1) * d = d * (n / d) + d := by ring
  have hq0 : n / d * d = d * (n / d) := by ring
  split_ifs <;> simp only [hq, hq0] <;> omega

theorem shiftFor_spec (n d : Nat) :
    ∀ (fuel k : Nat), d * 2 ^ 52 ≤ n * 2 ^ (k + fuel) →
      d * 2 ^ 52 ≤ n * 2 ^ shiftFor fuel n d k := by
  intro fuel
  induction fuel with
  | zero => intro k h; simpa [shiftFor] using h
  | succ fuel ih =>
    intro k h
    unfold shiftFor
    split
    · assumption
    · apply ih
      have : k + 1 + fuel = k + (fuel + 1) := by omega
      rw [this]
      exact h

theorem toDouble_spec (n d : Nat) (hn : 0 < n) (hd : 0 < d) :
    2 * ((toDouble n d).1 * d) ≤ 2 * (n * 2 ^ (toDouble n d).2) + d ∧
    2 * (n * 2 ^ (toDouble n d).2) ≤ 2 * ((toDouble n d).1 * d) + d ∧
    d * 2 ^ 52 ≤ n * 2 ^ (toDouble n d).2 := by
  have hn0 : n ≠ 0 := by omega
  simp only [toDouble, hn0, if_false]
  have hround := roundHalfEven_spec (n * 2 ^ shiftFor (d + 53) n d 0) d hd
  refine ⟨hround.1, hround.2, ?_⟩
  apply shiftFor_spec
  have h1 : d < 2 ^ d := Nat.lt_two_pow d
  calc d * 2 ^ 52 ≤ 2 ^ d * 2 ^ 52 := Nat.mul_le_mul_right _ h1.le
    _ ≤ 2 ^ d * 2 ^ 53 := Nat.mul_le_mul_left _ (by norm_num)
    _ = 2 ^ (0 + (d + 53)) := by rw [Nat.zero_add, pow_add]
    _ ≤ n * 2 ^ (0 + (d + 53)) := Nat.le_mul_of_pos_left _ hn

theorem toDouble_error (n d : Nat) (hn : 0 < n) (hd : 0 < d) :
    |((toDouble n d).1 : ℚ) / 2 ^ (toDouble n d).2 - (n : ℚ) / d| ≤ (n : ℚ) / d / 2 ^ 53 := by
  obtain ⟨h1, h2, h3⟩ := toDouble_spec n d hn hd
  generalize (toDouble n d).1 = m at h1 h2 h3 ⊢
  generalize (toDouble n d).2 = k at h1 h2 h3 ⊢
  have hA : (0 : ℚ) < 2 ^ k := by positivity
  have hD : (0 : ℚ) < d := by exact_mod_cast hd
  have c1 : (2 : ℚ) * (m * d) ≤ 2 * (n * 2 ^ k) + d := by exact_mod_cast h1
  have c2 : (2 : ℚ) * (n * 2 ^ k) ≤ 2 * (m * d) + d := by exact_mod_cast h2
  have c3 : (d : ℚ) * 2 ^ 52 ≤ n * 2 ^ k := by exact_mod_cast h3
  have hsub : (m : ℚ) / 2 ^ k - (n : ℚ) / d = (m * d - n * 2 ^ k) / (2 ^ k * d) := by
    field_simp
    ring
  have hbound : (n : ℚ) / d / 2 ^ 53 = (n * 2 ^ k) / (2 ^ k * d * 2 ^ 53) := by
    field_simp
    ring
  rw [hsub, hbound, abs_le]
  have hAD : (0 : ℚ) < 2 ^ k * d := by positivity
  constructor
  · rw [neg_le, ← neg_div, div_le_div_iff₀ hAD (by positivity)]
    nlinarith
  · rw [div_le_div_iff₀ hAD (by positivity)]
    nlinarith

theorem successRate_nat (s t : Nat) (ht : 0 < t) :
    successRate s t =
      (2 * ((toDouble ((toDouble s t).1 * 100) (2 ^ (toDouble s t).2)).1 : Int) +
          2 ^ (toDouble ((toDouble s t).1 * 100) (2 ^ (toDouble s t).2)).2) /
        2 ^ ((toDouble ((toDouble s t).1 * 100) (2 ^ (toDouble s t).2)).2 + 1) := by
  have ht' : (t : Int) > 0 := by exact_mod_cast ht
  have hs' : ¬ (s : Int) < 0 := by omega
  simp only [successRate, ht', if_true, Int.natAbs_ofNat, hs', if_false]

theorem toDouble_pos (n d : Nat) (hn : 0 < n) (hd : 0 < d) : 0 < (toDouble n d).1 := by
  obtain ⟨_, h2, h3⟩ := toDouble_spec n d hn hd
  by_contra h
  have h0 : (toDouble n d).1 = 0 := by omega
  rw [h0] at h2
  have hp : 0 < 2 ^ 52 := by positivity
  have : d * 1 ≤ d * 2 ^ 52 := Nat.mul_le_mul_left _ hp
  have h52 : (2:Nat) ^ 52 = 4503599627370496 := by norm_num
  rw [h52] at h3
  omega

theorem successRate_nearest (s t : Nat) (hst : s ≤ t) (ht : 0 < t) (hbound : t < 2 ^ 43) :
    2 * |successRate s t * t - 100 * s| ≤ (t : Int) := by
  rw [successRate_nat s t ht]
  by_cases hs : s = 0
  · subst hs
    have h0 : toDouble 0 t = (0, 0) := by simp [toDouble]
    have h1 : toDouble (0 * 100) (2 ^ 0) = (0, 0) := by simp [toDouble]
    simp only [h0, h1]
    norm_num
  · have hspos : 0 < s := Nat.pos_of_ne_zero hs
    have e1 := toDouble_error s t hspos ht
    have hm1 := toDouble_pos s t hspos ht
    have hA : 0 < 2 ^ (toDouble s t).2 := by positivity
    have e2 := toDouble_error ((toDouble s t).1 * 100) (2 ^ (toDouble s t).2)
      (by positivity) hA
    generalize (toDouble s t).1 = m1 at e1 e2 hm1 ⊢
    generalize (toDouble s t).2 = k1 at e1 e2 hA ⊢
    generalize (toDouble (m1 * 100) (2 ^ k1)).1 = m2 at e2 ⊢
    generalize (toDouble (m1 * 100) (2 ^ k1)).2 = k2 at e2 ⊢
    have hD : (0 : Int) < 2 ^ (k2 + 1) := by positivity
    have f1 := Int.ediv_mul_le (2 * (m2 : Int) + 2 ^ k2) hD.ne'
    have f2 := Int.lt_ediv_add_one_mul_self (2 * (m2 : Int) + 2 ^ k2) hD
    generalize (2 * (m2 : Int) + 2 ^ k2) / 2 ^ (k2 + 1) = r at f1 f2 ⊢
    -- the quantities as rationals
    have hB : (0 : ℚ) < 2 ^ k2 := by positivity
    have hT : (0 : ℚ) < t := by exact_mod_cast ht
    have g1 : (r : ℚ) * 2 ^ (k2 + 1) ≤ 2 * m2 + 2 ^ k2 := by exact_mod_cast f1
    have g2 : (2 : ℚ) * m2 + 2 ^ k2 < (r + 1) * 2 ^ (k2 + 1) := by exact_mod_cast f2
    have hx1 : (s : ℚ) / t ≤ 1 := by
      rw [div_le_one hT]
      exact_mod_cast hst
    have hx0 : (0 : ℚ) ≤ (s : ℚ) / t := by positivity
    have ha : ((m1 * 100 : Nat) : ℚ) / ((2 ^ k1 : Nat) : ℚ) = 100 * ((m1 : ℚ) / 2 ^ k1) := by
      push_cast
      ring
    rw [ha] at e2
    rw [abs_le] at e1 e2
    -- bounds on b = m2 / 2^k2
    have hb1 : (r : ℚ) - 1 / 2 ≤ (m2 : ℚ) / 2 ^ k2 := by
      rw [le_div_iff₀ hB]
      rw [pow_succ] at g1
      linarith
    have hb2 : (m2 : ℚ) / 2 ^ k2 < (r : ℚ) + 1 / 2 := by
      rw [div_lt_iff₀ hB]
      rw [pow_succ] at g2
      linarith
    have hu : (1 : ℚ) / 2 ^ 53 = 1 / 9007199254740992 := by norm_num
    have hxu : (s : ℚ) / t / 2 ^ 53 = (s : ℚ) / t * (1 / 9007199254740992) := by
      rw [div_eq_mul_one_div, hu]
    have hau : 100 * ((m1 : ℚ) / 2 ^ k1) / 2 ^ 53
        = 100 * ((m1 : ℚ) / 2 ^ k1) * (1 / 9007199254740992) := by
      rw [div_eq_mul_one_div, hu]
    rw [hxu] at e1
    rw [hau] at e2
    have hlow : (r : ℚ) - 1 / 2 - 300 / 9007199254740992 ≤ 100 * ((s : ℚ) / t) := by
      linarith [e1.1, e1.2, e2.1, e2.2]
    have hhigh : 100 * ((s : ℚ) / t) < (r : ℚ) + 1 / 2 + 300 / 9007199254740992 := by
      linarith [e1.1, e1.2, e2.1, e2.2]
    have hxt : (s : ℚ) / t * t = s := div_mul_cancel₀ _ hT.ne'
    have hlow' := mul_le_mul_of_nonneg_right hlow hT.le
    have hhigh' := mul_lt_mul_of_pos_right hhigh hT
    have hbq : (t : ℚ) < 8796093022208 := by exact_mod_cast (by norm_num at hbound; exact hbound)
    have k1' : ((2 * r * t - t - 1 : Int) : ℚ) < ((200 * s : Int) : ℚ) := by
      push_cast
      nlinarith
    have k2' : ((200 * s : Int) : ℚ) < ((2 * r * t + t + 1 : Int) : ℚ) := by
      push_cast
      nlinarith
    have i1 : (2 * r * t - t - 1 : Int) < 200 * s := by exact_mod_cast k1'
    have i2 : (200 * s : Int) < 2 * r * t + t + 1 := by exact_mod_cast k2'
    rcases abs_cases (r * (t : Int) - 100 * s) with ⟨h, _⟩ | ⟨h, _⟩ <;> rw [h] <;> linarith

theorem excessFor_spec (n : Nat) :
    ∀ (fuel e : Nat), n < 2 ^ (53 + e + fuel) →
      n < 2 ^ (53 + excessFor fuel n e) ∧
        (excessFor fuel n e = e ∨ 2 ^ (52 + excessFor fuel n e) ≤ n) := by
  intro fuel
  induction fuel with
  | zero =>
    intro e h
    exact ⟨by simpa [excessFor] using h, Or.inl rfl⟩
  | succ fuel ih =>
    intro e h
    unfold excessFor
    split
    · exact ⟨by assumption, Or.inl rfl⟩
    · rename_i hge
      have h' : n < 2 ^ (53 + (e + 1) + fuel) := by
        have : 53 + (e + 1) + fuel = 53 + e + (fuel + 1) := by omega
        rw [this]
        exact h
      obtain ⟨h1, h2⟩ := ih (e + 1) h'
      refine ⟨h1, Or.inr ?_⟩
      rcases h2 with h2 | h2
      · rw [h2]
        have : 52 + (e + 1) = 53 + e := by omega
        rw [this]
        omega
      · exact h2

theorem nearestDouble_spec (n : Nat) :
    (n < 2 ^ 53 → nearestDouble n = n) ∧ n * (2 ^ 53 - 1) ≤ nearestDouble n * 2 ^ 53 ∧
      nearestDouble n * 2 ^ 53 ≤ n * (2 ^ 53 + 1) := by
  have hfuel : n < 2 ^ (53 + 0 + n) := by
    calc n < 2 ^ n := Nat.lt_two_pow n
      _ ≤ 2 ^ (53 + 0 + n) := Nat.pow_le_pow_right (by norm_num) (by omega)
  obtain ⟨h1, h2⟩ := excessFor_spec n n 0 hfuel
  have hround := roundHalfEven_spec n (2 ^ excessFor n n 0) (by positivity)
  unfold nearestDouble
  simp only
  generalize excessFor n n 0 = e at h1 h2 hround
  have h53 : (2 : Nat) ^ 53 = 9007199254740992 := by norm_num
  have h52 : (2 : Nat) ^ 52 = 4503599627370496 := by norm_num
  have hexact : e = 0 → roundHalfEven n (2 ^ e) * 2 ^ e = n := by
    intro he
    subst he
    simp only [pow_zero, Nat.mul_one] at hround ⊢
    omega
  refine ⟨?_, ?_⟩
  · intro hsmall
    apply hexact
    rcases h2 with h2 | h2
    · exact h2
    · by_contra he
      have : 2 ^ 53 ≤ 2 ^ (52 + e) := Nat.pow_le_pow_right (by norm_num) (by omega)
      omega
  · rcases h2 with h2 | h2
    · rw [hexact h2]
      exact ⟨Nat.mul_le_mul_left _ (by norm_num), Nat.mul_le_mul_left _ (by norm_num)⟩
    · rw [pow_add, h52] at h2
      rw [h53]
      generalize roundHalfEven n (2 ^ e) * 2 ^ e = t at hround ⊢
      generalize 2 ^ e = d at hround h2
      omega

theorem nearestDouble_finite (n : Nat) (hn : n < 2 ^ 1023) : nearestDouble n < 2 ^ 1024 := by
  have h := (nearestDouble_spec n).2.2
  have h1 : n * (2 ^ 53 + 1) < 2 ^ 1023 * (2 ^ 53 + 1) :=
    Nat.mul_lt_mul_of_pos_right hn (by positivity)
  have h2 : 2 ^ 1023 * (2 ^ 53 + 1) ≤ 2 ^ 1024 * 2 ^ 53 := by
    have : (2 : Nat) ^ 1024 = 2 ^ 1023 * 2 := by rw [← pow_succ]
    rw [this, Nat.mul_assoc]
    exact Nat.mul_le_mul_left _ (by norm_num)
  exact Nat.lt_of_mul_lt_mul_right (lt_of_le_of_lt h (lt_of_lt_of_le h1 h2))

theorem addDouble_nat (a b : Nat) :
    addDouble a b =
      if 2 ^ 1024 ≤ nearestDouble (a + b) then .infinite false
      else .finite ((nearestDouble (a + b) : Nat) : Int) := by
  have h : ¬ ((a : Int) + b < 0) := by omega
  have habs : ((a : Int) + b).natAbs = a + b := by
    rw [← Nat.cast_add, Int.natAbs_ofNat]
  simp only [addDouble, h, if_false, habs, decide_False]

theorem successRate_bounds (s t : Nat) (ht : 0 < t) (hst : s * (2 ^ 53 - 1) ≤ t * 2 ^ 53) :
    0 ≤ successRate s t ∧ successRate s t ≤ 100 := by
  rw [successRate_nat s t ht]
  refine ⟨Int.ediv_nonneg (by positivity) (by positivity), ?_⟩
  by_cases hs : s = 0
  · subst hs
    have h0 : toDouble 0 t = (0, 0) := by simp [toDouble]
    have h1 : toDouble (0 * 100) (2 ^ 0) = (0, 0) := by simp [toDouble]
    simp only [h0, h1]
    norm_num
  · have hspos : 0 < s := Nat.pos_of_ne_zero hs
    have e1 := toDouble_error s t hspos ht
    have hm1 := toDouble_pos s t hspos ht
    have hA : 0 < 2 ^ (toDouble s t).2 := by positivity
    have e2 := toDouble_error ((toDouble s t).1 * 100) (2 ^ (toDouble s t).2)
      (by positivity) hA
    generalize (toDouble s t).1 = m1 at e1 e2 hm1 ⊢
    generalize (toDouble s t).2 = k1 at e1 e2 hA ⊢
    generalize (toDouble (m1 * 100) (2 ^ k1)).1 = m2 at e2 ⊢
    generalize (toDouble (m1 * 100) (2 ^ k1)).2 = k2 at e2 ⊢
    have hD : (0 : Int) < 2 ^ (k2 + 1) := by positivity
    have f1 := Int.ediv_mul_le (2 * (m2 : Int) + 2 ^ k2) hD.ne'
    generalize (2 * (m2 : Int) + 2 ^ k2) / 2 ^ (k2 + 1) = r at f1 ⊢
    have hB : (0 : ℚ) < 2 ^ k2 := by positivity
    have hT : (0 : ℚ) < t := by exact_mod_cast ht
    have g1 : (r : ℚ) * 2 ^ (k2 + 1) ≤ 2 * m2 + 2 ^ k2 := by exact_mod_cast f1
    have hst' : s * 9007199254740991 ≤ t * 9007199254740992 := by
      norm_num at hst
      exact hst
    have hstq : (s : ℚ) * 9007199254740991 ≤ t * 9007199254740992 := by exact_mod_cast hst'
    have hx1 : (s : ℚ) / t ≤ 9007199254740992 / 9007199254740991 := by
      rw [div_le_div_iff₀ hT (by norm_num)]
      linarith
    have ha : ((m1 * 100 : Nat) : ℚ) / ((2 ^ k1 : Nat) : ℚ) = 100 * ((m1 : ℚ) / 2 ^ k1) := by
      push_cast
      ring
    rw [ha] at e2
    rw [abs_le] at e1 e2
    have hb1 : (r : ℚ) - 1 / 2 ≤ (m2 : ℚ) / 2 ^ k2 := by
      rw [le_div_iff₀ hB]
      rw [pow_succ] at g1
      linarith
    have hu : (1 : ℚ) / 2 ^ 53 = 1 / 9007199254740992 := by norm_num
    have hxu : (s : ℚ) / t / 2 ^ 53 = (s : ℚ) / t * (1 / 9007199254740992) := by
      rw [div_eq_mul_one_div, hu]
    have hau : 100 * ((m1 : ℚ) / 2 ^ k1) / 2 ^ 53
        = 100 * ((m1 : ℚ) / 2 ^ k1) * (1 / 9007199254740992) := by
      rw [div_eq_mul_one_div, hu]
    rw [hxu] at e1
    rw [hau] at e2
    have hlt : (r : ℚ) < 101 := by
      linarith [e1.2, e2.2]
    have hlt' : r < 101 := by exact_mod_cast hlt
    omega

theorem orElse_count (x : Option JsVal) (n : Nat) (h : countOf x = some n) :
    orElse x (.num 0) = .num n := by
  cases x with
  | none =>
    simp only [countOf, Option.some.injEq] at h
    subst h
    rfl
  | some v =>
    cases v with
    | num m =>
      simp only [countOf] at h
      split at h
      · simp only [Option.some.injEq] at h
        subst h
        rename_i hm
        by_cases h0 : m = 0
        · subst h0; rfl
        · simp [orElse, truthy, h0, Int.toNat_of_nonneg hm]
      · simp at h
    | null => simp [countOf] at h
    | bool b => simp [countOf] at h
    | str s => simp [countOf] at h
    | arr items => simp [countOf] at h
    | obj ps => simp [countOf] at h

theorem showUpdateResults_run (result : JsVal) (updateType : UpdateType) (env : Env) (s : App)
    (updated failed : Nat) (hresult : result ≠ .null)
    (hu : countOf (prop result "updated_count") = some updated)
    (hf : countOf (prop result "failed_count") = some failed) :
    showUpdateResults result updateType env s =
      (.ok (), { s with review := some ⟨.num updated, .num failed, updateType⟩ }) := by
  have gu := getProp_of_ne_null result "updated_count" hresult
  have gf := getProp_of_ne_null result "failed_count" hresult
  simp [showUpdateResults, gu, gf, orElse_count _ _ hu, orElse_count _ _ hf, toText, Eff.update]

/-- C11, as the code behaves: the rate and the total are computed in double
precision. For 23 updated and 17 failed the exact rate is 57.5 percent and the
dialog shows 57; for 6359999999999999 updated and 1640000000000001 failed the
exact rate lies below 79.5 percent and the dialog shows 80, which is not the
nearest integer; for 9007199254740991 updated and 2 failed the dialog shows the
total 9007199254740992, which is not the sum 9007199254740993. -/
theorem rate_is_rounded_in_double_precision :
    ((showUpdateResults tieBody .description (sampleEnv penNetwork) App.initial).2.review.bind
      Review.successRate) = some 57 ∧
    (2 * (100 * 23) : Int) = (2 * 57 + 1) * (23 + 17) ∧
    ((showUpdateResults hugeBody .description (sampleEnv penNetwork) App.initial).2.review.bind
      Review.successRate) = some 80 ∧
    ¬ (2 * |(80 : Int) * (6359999999999999 + 1640000000000001) - 100 * 6359999999999999|
      ≤ 6359999999999999 + 1640000000000001) ∧
    ((showUpdateResults bigSumBody .description (sampleEnv penNetwork) App.initial).2.review.bind
      Review.totalCount) = some (.finite 9007199254740992) ∧
    (9007199254740991 + 2 : Int) ≠ 9007199254740992 := by
  refine ⟨by decide, by decide, by decide, by decide, by decide, by decide⟩

/-- C11, amended: for a response whose counts are non-negative integers (an
absent count being 0), `showUpdateResults` reports as total the sum `updated +
failed` when that is below `2^53`, and for a sum below `2^1023` a double within
the fraction `2^-53` of it; the rate is 0 for a total of 0, for a total between
1 and `2^43` it is an integer within one half of `100 * updated / total` (an
exact half may go either way), and it always lies between 0 and 100. -/
theorem showUpdateResults_reports_rate (result : JsVal) (updateType : UpdateType)
    (env : Env) (s : App) (updated failed : Nat) (hresult : result ≠ .null)
    (hu : countOf (prop result "updated_count") = some updated)
    (hf : countOf (prop result "failed_count") = some failed) :
    ∃ review rate,
      showUpdateResults result updateType env s = (.ok (), { s with review := some review }) ∧
      (updated + failed < 2 ^ 53 →
        review.totalCount = some (.finite ((updated : Int) + failed))) ∧
      (updated + failed < 2 ^ 1023 →
        ∃ total : Int, review.totalCount = some (.finite total) ∧
          |total - ((updated : Int) + failed)| * 2 ^ 53 ≤ (updated : Int) + failed) ∧
      review.successRate = some rate ∧
      (updated + failed = 0 → rate = 0) ∧
      (0 < updated + failed → updated + failed < 2 ^ 43 →
        2 * |rate * ((updated + failed : Nat) : Int) - 100 * updated|
            ≤ ((updated + failed : Nat) : Int)) ∧
      0 ≤ rate ∧ rate ≤ 100 := by
  obtain ⟨hexact, hlow, hhigh⟩ := nearestDouble_spec (updated + failed)
  have hrun := showUpdateResults_run result updateType env s updated failed hresult hu hf
  have hadd := addDouble_nat updated failed
  have hfinite := nearestDouble_finite (updated + failed)
  have h53 : (2 : Nat) ^ 53 = 9007199254740992 := by norm_num
  by_cases hover : 2 ^ 1024 ≤ nearestDouble (updated + failed)
  · rw [if_pos hover] at hadd
    have hbig : 2 ^ 1023 ≤ updated + failed := by
      by_contra hsmall
      exact absurd (hfinite (not_le.mp hsmall)) (not_lt.mpr hover)
    have h43 : (2 : Nat) ^ 43 < 2 ^ 1023 := Nat.pow_lt_pow_right (by norm_num) (by norm_num)
    have h53' : (2 : Nat) ^ 53 < 2 ^ 1023 := Nat.pow_lt_pow_right (by norm_num) (by norm_num)
    refine ⟨⟨.num updated, .num failed, updateType⟩, 0, hrun, ?_, ?_, ?_, ?_, ?_,
      le_refl _, by norm_num⟩
    · intro hsmall
      exact absurd (lt_of_le_of_lt hbig (lt_trans hsmall h53')) (lt_irrefl _)
    · intro hsmall
      exact absurd (lt_of_le_of_lt hbig hsmall) (lt_irrefl _)
    · simp only [Review.successRate, hadd]
    · intro _
      rfl
    · intro _ hsmall
      exact absurd (lt_of_le_of_lt hbig (lt_trans hsmall h43)) (lt_irrefl _)
  · rw [if_neg hover] at hadd
    have htotal : (⟨.num updated, .num failed, updateType⟩ : Review).totalCount
        = some (.finite ((nearestDouble (updated + failed) : Nat) : Int)) := by
      simp only [Review.totalCount, hadd]
    refine ⟨⟨.num updated, .num failed, updateType⟩,
      successRate updated ((nearestDouble (updated + failed) : Nat) : Int), hrun,
      ?_, ?_, ?_, ?_, ?_, ?_⟩
    · intro hsmall
      rw [htotal, hexact hsmall, Nat.cast_add]
    · intro _
      refine ⟨_, htotal, ?_⟩
      rw [h53] at hlow hhigh
      have hlow' : ((updated : Int) + failed) * 9007199254740991
          ≤ (nearestDouble (updated + failed) : Int) * 9007199254740992 := by
        exact_mod_cast hlow
      have hhigh' : (nearestDouble (updated + failed) : Int) * 9007199254740992
          ≤ ((updated : Int) + failed) * 9007199254740993 := by
        exact_mod_cast hhigh
      have h53i : (2 : Int) ^ 53 = 9007199254740992 := by norm_num
      rw [h53i]
      rcases abs_cases ((nearestDouble (updated + failed) : Int) - ((updated : Int) + failed))
        with ⟨h, _⟩ | ⟨h, _⟩ <;> rw [h] <;> linarith
    · simp only [Review.successRate, hadd]
    · intro h0
      rw [hexact (by rw [h0]; positivity), h0]
      simp [successRate]
    · intro hpos hbound
      have hsmall : updated + failed < 2 ^ 53 :=
        lt_trans hbound (Nat.pow_lt_pow_right (by norm_num) (by norm_num))
      rw [hexact hsmall]
      exact successRate_nearest updated (updated + failed) (Nat.le_add_right _ _) hpos hbound
    · by_cases h0 : updated + failed = 0
      · rw [hexact (by rw [h0]; positivity), h0]
        simp [successRate]
      · have hle : updated * (2 ^ 53 - 1) ≤ (updated + failed) * (2 ^ 53 - 1) :=
          Nat.mul_le_mul_right _ (Nat.le_add_right _ _)
        have hpos : 0 < nearestDouble (updated + failed) := by
          rw [h53] at hlow
          omega
        exact successRate_bounds updated (nearestDouble (updated + failed)) hpos
          (le_trans hle hlow)

theorem showUpdateResults_reports_rate_witness :
    ∃ review,
      (showUpdateResults threeOfFourBody .description (sampleEnv penNetwork) App.initial).2.review
        = some review ∧
      review.totalCount = some (.finite 4) ∧ review.successRate = some 75 := by
  obtain ⟨review, rate, hrun, htotal, _, hrate, _, hnear, _⟩ :=
    showUpdateResults_reports_rate threeOfFourBody .description (sampleEnv penNetwork)
      App.initial 3 1 (by intro h; cases h) rfl rfl
  refine ⟨review, by rw [hrun], htotal (by norm_num), ?_⟩
  have h1 := hnear (by norm_num) (by norm_num)
  rw [hrate]
  have h2 : rate = 75 := by
    push_cast at h1
    rcases abs_cases (rate * 4 - 300) with ⟨h, _⟩ | ⟨h, _⟩ <;> rw [h] at h1 <;> omega
  rw [h2]

/-! ## The busy flag -/

theorem Eff.tryCatch_alert_ok (body : Eff Unit) (f : JsError → App → App) (env : Env) (s : App) :
    (Eff.tryCatch body (fun e => Eff.update (f e)) env s).1 = .ok () := by
  unfold Eff.tryCatch
  rcases body env s with ⟨r, s'⟩
  cases r <;> rfl

theorem Eff.tryFinally_hide (body : Eff Unit) (env : Env) (s : App) :
    (Eff.tryFinally body (showLoading false) env s).1 = (body env s).1 ∧
    (Eff.tryFinally body (showLoading false) env s).2.loading = false := by
  unfold Eff.tryFinally showLoading Eff.update
  rcases body env s with ⟨r, s'⟩
  exact ⟨rfl, rfl⟩

/-- C12: a description or image submission that passes the local validation
ends with the busy flag (the loading overlay) cleared, and the handler returns
without throwing, whatever the network answers: a success followed by the
reload, a non-success status, a false flag, an unparsable body, a rejected
fetch, or a reload whose own requests fail. -/
theorem busy_cleared_on_every_exit (env : Env) (app : App) (sub : Submission)
    (hsel : truthy app.currentShelfId = true) (hacc : sub.accepted = true) :
    (handleUpdate sub env app).1 = .ok () ∧ (handleUpdate sub env app).2.loading = false := by
  rw [handleUpdate_accepted sub env app hsel hacc]
  unfold submitUpdate
  simp only [showLoading, Eff.run_bind_update]
  have h := Eff.tryFinally_hide
    (Eff.tryCatch
      (do
        let app ← Eff.state
        let idText ← Eff.lift (toText app.currentShelfId)
        let response ← Eff.fetch (sub.request idText)
        let result ← Eff.lift response.json
        let success ← if response.ok then Eff.lift (getProp result "success") else pure none
        if response.ok && truthyOpt success then do
          showUpdateResults result sub.updateType
          hideModal
          refreshData
        else do
          let detail ← Eff.lift (getProp result "detail")
          let message ← Eff.lift (toText (orElse detail (.str sub.fallback)))
          Eff.raise (newError message))
      (fun error => showAlert (sub.label ++ error.message) "danger"))
    env { app with loading := true }
  simp only [showLoading] at h
  refine ⟨?_, h.2⟩
  rw [h.1]
  exact Eff.tryCatch_alert_ok _ _ _ _

theorem busy_cleared_on_every_exit_witness :
    (handleUpdate (.description "new text") (sampleEnv reloadFailsNetwork) dialogOpen).2.loading
      = false ∧
    (handleUpdate (.image (some 10))
      (sampleEnv (updateNetwork (.error ⟨"TypeError", "Failed to fetch"⟩))) dialogOpen).2.loading
      = false ∧
    (handleUpdate (.image (some 10))
      (sampleEnv (updateNetwork (.ok ⟨200, .error ⟨"SyntaxError", "Unexpected token"⟩⟩)))
      dialogOpen).2.loading = false :=
  ⟨(busy_cleared_on_every_exit (sampleEnv reloadFailsNetwork) dialogOpen
      (.description "new text") rfl (by decide)).2,
    (busy_cleared_on_every_exit
      (sampleEnv (updateNetwork (.error ⟨"TypeError", "Failed to fetch"⟩))) dialogOpen
      (.image (some 10)) rfl (by decide)).2,
    (busy_cleared_on_every_exit
      (sampleEnv (updateNetwork (.ok ⟨200, .error ⟨"SyntaxError", "Unexpected token"⟩⟩)))
      dialogOpen (.image (some 10)) rfl (by decide)).2⟩

/-! ## Local validation -/

/-- C13: a submission made with no selected shelf id, a description that is
empty once trimmed, and an image submission without a file or with a file of
size 0 are rejected locally: the handler shows one alert and changes nothing
else, so no request is issued, the busy flag is not set, and the selected shelf
id and the cached catalog stay as they were. -/
theorem invalid_submission_rejected_locally (env : Env) (app : App) (sub : Submission)
    (h : app.currentShelfId = .null ∨ sub.accepted = false) :
    (∃ message type, handleUpdate sub env app =
      (.ok (), { app with alerts := app.alerts ++ [⟨message, type⟩] })) ∧
    (handleUpdate sub env app).2.requests = app.requests ∧
    (handleUpdate sub env app).2.loading = app.loading ∧
    (handleUpdate sub env app).2.currentShelfId = app.currentShelfId ∧
    (handleUpdate sub env app).2.shelves = app.shelves ∧
    (handleUpdate sub env app).2.container = app.container := by
  have hmain : ∃ message type, handleUpdate sub env app =
      (.ok (), { app with alerts := app.alerts ++ [⟨message, type⟩] }) := by
    by_cases hsel : truthy app.currentShelfId = true
    · have hacc : sub.accepted = false := by
        rcases h with h | h
        · rw [h] at hsel
          simp [truthy] at hsel
        · exact h
      cases sub with
      | description text =>
        simp only [Submission.accepted, bne_eq_false_iff_eq] at hacc
        exact ⟨"لطفاً توضیحاتی وارد کنید", "warning", by
          simp [handleUpdate, handleDescriptionUpdate, hsel, hacc, showAlert, Eff.update]⟩
      | image imageFile =>
        cases imageFile with
        | none =>
          exact ⟨"لطفاً یک فایل تصویری انتخاب کنید", "warning", by
            simp [handleUpdate, handleImageUpdate, hsel, showAlert, Eff.update]⟩
        | some size =>
          simp only [Submission.accepted, bne_eq_false_iff_eq] at hacc
          exact ⟨"لطفاً یک فایل تصویری انتخاب کنید", "warning", by
            simp [handleUpdate, handleImageUpdate, hsel, hacc, showAlert, Eff.update]⟩
    · cases sub with
      | description text =>
        exact ⟨"Error: No shelf selected", "danger", by
          simp [handleUpdate, handleDescriptionUpdate, hsel, showAlert, Eff.update]⟩
      | image imageFile =>
        exact ⟨"Error: No shelf selected", "danger", by
          simp [handleUpdate, handleImageUpdate, hsel, showAlert, Eff.update]⟩
  obtain ⟨message, type, hrun⟩ := hmain
  refine ⟨⟨message, type, hrun⟩, ?_, ?_, ?_, ?_, ?_⟩ <;> rw [hrun]

theorem invalid_submission_rejected_locally_witness :
    handleUpdate (.description "   ") (sampleEnv penNetwork) dialogOpen =
      (.ok (), { dialogOpen with alerts := [⟨"لطفاً توضیحاتی وارد کنید", "warning"⟩] }) ∧
    (handleUpdate (.image (some 0)) (sampleEnv penNetwork) dialogOpen).2.requests = [] ∧
    (handleUpdate (.image (some 10)) (sampleEnv penNetwork) App.initial).2.requests = [] ∧
    (handleUpdate (.image (some 10)) (sampleEnv penNetwork) App.initial).2.loading = false :=
  ⟨rfl,
    (invalid_submission_rejected_locally (sampleEnv penNetwork) dialogOpen (.image (some 0))
      (Or.inr (by decide))).2.1,
    (invalid_submission_rejected_locally (sampleEnv penNetwork) App.initial (.image (some 10))
      (Or.inl rfl)).2.1,
    (invalid_submission_rejected_locally (sampleEnv penNetwork) App.initial (.image (some 10))
      (Or.inl rfl)).2.2.1⟩

/-! ## Malformed shelf lists -/

/-- C14, the code at malformed shelf lists, all returned with status 200. A
list holding `null`: `displayShelves` throws on reading `id`, nobody awaits the
call, the rejection is unhandled and the container is never written. An
object without `data`: the loop throws, again unhandled. The body `null`: the
failure state, not the empty catalog. A list holding the scalar 5: the entry is
not dropped, it gets a card of its own and a products request. -/
theorem loadShelves_malformed_entries :
    (loadShelves (sampleEnv (shelvesNetwork (.arr [.null]))) App.initial).2.unhandled.map
      JsError.name = ["TypeError"] ∧
    (loadShelves (sampleEnv (shelvesNetwork (.arr [.null]))) App.initial).2.container
      = .untouched ∧
    (loadShelves (sampleEnv (shelvesNetwork (.obj []))) App.initial).2.unhandled.map
      JsError.name = ["TypeError"] ∧
    (loadShelves (sampleEnv (shelvesNetwork .null)) App.initial).2.container = .loadFailed ∧
    (loadShelves (sampleEnv (shelvesNetwork (.arr [.num 5]))) App.initial).2.container
      = .cards [{ title := "قفسه بدون نام", shelfId := "undefined", productCount := 0,
                  products := [], more := none }] ∧
    (loadShelves (sampleEnv (shelvesNetwork (.arr [.num 5]))) App.initial).2.requests
      = [.shelves, .products "undefined"] := by
  refine ⟨by rfl, by rfl, by rfl, by rfl, by rfl, by rfl⟩

/-! ## The selected shelf -/

theorem Eff.keeps_of_quiet {α : Type} (m : Eff α) (h : Eff.Quiet m) : Eff.KeepsSelection m := by
  intro env s
  have hq := h env s
  simp only [App.session, Prod.mk.injEq] at hq
  exact hq.1

theorem Eff.keeps_pure {α : Type} (a : α) : Eff.KeepsSelection (pure a : Eff α) :=
  fun _ _ => rfl

theorem Eff.keeps_update (f : App → App) (hf : ∀ s, (f s).currentShelfId = s.currentShelfId) :
    Eff.KeepsSelection (Eff.update f) :=
  fun _ s => hf s

theorem Eff.keeps_bind {α β : Type} (m : Eff α) (f : α → Eff β) (hm : Eff.KeepsSelection m)
    (hf : ∀ a, Eff.KeepsSelection (f a)) : Eff.KeepsSelection (m >>= f) := by
  intro env s
  rw [Eff.run_bind]
  have h := hm env s
  rcases hrun : m env s with ⟨r, s'⟩
  rw [hrun] at h
  cases r with
  | error e => exact h
  | ok a => exact (hf a env s').trans h

theorem Eff.keeps_tryCatch {α : Type} (body : Eff α) (handler : JsError → Eff α)
    (hb : Eff.KeepsSelection body) (hh : ∀ e, Eff.KeepsSelection (handler e)) :
    Eff.KeepsSelection (Eff.tryCatch body handler) := by
  intro env s
  unfold Eff.tryCatch
  have h := hb env s
  rcases hrun : body env s with ⟨r, s'⟩
  rw [hrun] at h
  cases r with
  | error e => exact (hh e env s').trans h
  | ok a => exact h

theorem Eff.keeps_tryFinally {α : Type} (body : Eff α) (cleanup : Eff Unit)
    (hb : Eff.KeepsSelection body) (hc : Eff.KeepsSelection cleanup) :
    Eff.KeepsSelection (Eff.tryFinally body cleanup) := by
  intro env s
  have h := hb env s
  rcases hrun : body env s with ⟨r, s'⟩
  rw [hrun] at h
  have h2 := hc env s'
  rcases hrun2 : cleanup env s' with ⟨r2, s''⟩
  rw [hrun2] at h2
  simp only [Eff.tryFinally, hrun, hrun2]
  cases r2 with
  | error e => exact h2.trans h
  | ok a => exact h2.trans h

theorem refreshData_keeps : Eff.KeepsSelection refreshData :=
  fun env s => (refreshData_session env s).1

theorem showUpdateResults_keeps (result : JsVal) (updateType : UpdateType) :
    Eff.KeepsSelection (showUpdateResults result updateType) := by
  unfold showUpdateResults
  refine Eff.keeps_bind _ _ (Eff.keeps_of_quiet _ (Eff.quiet_lift _)) fun _ => ?_
  refine Eff.keeps_bind _ _ (Eff.keeps_of_quiet _ (Eff.quiet_lift _)) fun _ => ?_
  refine Eff.keeps_bind _ _ (Eff.keeps_of_quiet _ (Eff.quiet_lift _)) fun _ => ?_
  refine Eff.keeps_bind _ _ (Eff.keeps_of_quiet _ (Eff.quiet_lift _)) fun _ => ?_
  exact Eff.keeps_update _ fun _ => rfl

theorem submitUpdate_keeps (request : String → Request) (updateType : UpdateType)
    (fallback label : String) :
    Eff.KeepsSelection (submitUpdate request updateType fallback label) := by
  unfold submitUpdate
  refine Eff.keeps_bind _ _ (Eff.keeps_update _ fun _ => rfl) fun _ => ?_
  refine Eff.keeps_tryFinally _ _ ?_ (Eff.keeps_update _ fun _ => rfl)
  refine Eff.keeps_tryCatch _ _ ?_ fun _ => Eff.keeps_update _ fun _ => rfl
  refine Eff.keeps_bind _ _ (Eff.keeps_of_quiet _ Eff.quiet_state) fun app => ?_
  refine Eff.keeps_bind _ _ (Eff.keeps_of_quiet _ (Eff.quiet_lift _)) fun idText => ?_
  refine Eff.keeps_bind _ _ (Eff.keeps_of_quiet _ (Eff.quiet_fetch _)) fun response => ?_
  refine Eff.keeps_bind _ _ (Eff.keeps_of_quiet _ (Eff.quiet_lift _)) fun result => ?_
  have hrest : ∀ success : Option JsVal, Eff.KeepsSelection
      (if (response.ok && truthyOpt success) = true then do
        showUpdateResults result updateType
        hideModal
        refreshData
      else do
        let detail ← Eff.lift (getProp result "detail")
        let message ← Eff.lift (toText (orElse detail (.str fallback)))
        Eff.raise (newError message) : Eff Unit) := by
    intro success
    split
    · refine Eff.keeps_bind _ _ (showUpdateResults_keeps _ _) fun _ => ?_
      refine Eff.keeps_bind _ _ (Eff.keeps_update _ fun _ => rfl) fun _ => ?_
      exact refreshData_keeps
    · refine Eff.keeps_bind _ _ (Eff.keeps_of_quiet _ (Eff.quiet_lift _)) fun detail => ?_
      refine Eff.keeps_bind _ _ (Eff.keeps_of_quiet _ (Eff.quiet_lift _)) fun message => ?_
      exact Eff.keeps_of_quiet _ (Eff.quiet_raise _)
  dsimp only
  split
  · exact Eff.keeps_bind _ _ (Eff.keeps_of_quiet _ (Eff.quiet_lift _)) hrest
  · exact Eff.keeps_bind _ _ (Eff.keeps_pure _) hrest

theorem handleUpdate_keeps (sub : Submission) : Eff.KeepsSelection (handleUpdate sub) := by
  cases sub with
  | description text =>
    unfold handleUpdate handleDescriptionUpdate
    refine Eff.keeps_bind _ _ (Eff.keeps_of_quiet _ Eff.quiet_state) fun app => ?_
    split
    · exact Eff.keeps_update _ fun _ => rfl
    · split
      · exact Eff.keeps_update _ fun _ => rfl
      · exact submitUpdate_keeps _ _ _ _
  | image imageFile =>
    unfold handleUpdate handleImageUpdate
    refine Eff.keeps_bind _ _ (Eff.keeps_of_quiet _ Eff.quiet_state) fun app => ?_
    split
    · exact Eff.keeps_update _ fun _ => rfl
    · split
      · exact Eff.keeps_update _ fun _ => rfl
      · split
        · exact Eff.keeps_update _ fun _ => rfl
        · exact submitUpdate_keeps _ _ _ _

/-- C15, as the code behaves: after the update dialog was opened for shelf 5
and a description update succeeded, the dialog is closed and the selected
shelf id is still 5, not absent. -/
theorem selected_shelf_survives_close :
    (handleUpdate (.description "new text")
      (sampleEnv (updateNetwork (.ok ⟨200, .ok threeOfFourBody⟩)))
      (openUpdateModal (.num 5) (sampleEnv penNetwork) App.initial).2).2.updateModalShown
      = false ∧
    (handleUpdate (.description "new text")
      (sampleEnv (updateNetwork (.ok ⟨200, .ok threeOfFourBody⟩)))
      (openUpdateModal (.num 5) (sampleEnv penNetwork) App.initial).2).2.currentShelfId
      = .num 5 ∧
    (hideModal (sampleEnv penNetwork)
      (openUpdateModal (.num 5) (sampleEnv penNetwork) App.initial).2).2.currentShelfId
      = .num 5 ∧
    JsVal.num 5 ≠ JsVal.null := by
  refine ⟨by rfl, by rfl, by rfl, by intro h; cases h⟩

/-- C15, amended: the selected shelf id is absent at startup, and
`openUpdateModal x` sets it to `x`; `hideModal` closes the update dialog and
leaves the selected shelf id as it was, and so does every run of an update
handler, a successful submission included. -/
theorem selected_shelf_lifecycle :
    App.initial.currentShelfId = .null ∧
    (∀ (x : JsVal) (env : Env) (s : App), (openUpdateModal x env s).2.currentShelfId = x) ∧
    (∀ (env : Env) (s : App),
      (hideModal env s).2.updateModalShown = false ∧
      (hideModal env s).2.currentShelfId = s.currentShelfId) ∧
    (∀ (sub : Submission) (env : Env) (s : App),
      (handleUpdate sub env s).2.currentShelfId = s.currentShelfId) :=
  ⟨rfl, fun _ _ _ => rfl, fun _ _ => ⟨rfl, rfl⟩, fun sub env s => handleUpdate_keeps sub env s⟩

end BasalamApp
